import Mathlib

/-!
Verification development for the LegalMCP repository (an MCP protocol-adapter
exposing legal-research tools over the IndianKanoon HTTP API).

The TypeScript source (src/index.ts, src/api-client.ts) is shallowly embedded
here: pure string processing is modelled on `List Char`, the floating-point
relevance arithmetic on `ℚ` (only the multiplicative structure and comparisons
matter to the properties below), timestamps and durations on `ℕ` milliseconds,
and the stateful HTTP-client cache as explicit state passing.  JavaScript
regular expressions used by the source are embedded either through a small
backtracking matcher over an inductive pattern language (`Piece`) or, where a
regex is used for captures/replacement, as a hand-coded scanner whose doc
comment records the original regex.  `RegExp.test` only requires existential
match semantics, which the matcher implements directly.
-/

namespace LegalMCP

/-- Character sequences; the embedding works on `List Char` throughout
(`String.data` converts concrete literals). -/
abbrev Chars := List Char

/-- JavaScript `\s` on the ASCII range (space, tab, LF, VT, FF, CR). -/
def isWsC (c : Char) : Bool :=
  c = ' ' || c = '\t' || c = '\n' || c = '\x0b' || c = '\x0c' || c = '\r'

/-- JavaScript `\d`. -/
def isDigitC (c : Char) : Bool := '0' ≤ c && c ≤ '9'

/-- ASCII letters (what `[A-Z]` matches under the `i` flag). -/
def isAlphaC (c : Char) : Bool := ('a' ≤ c && c ≤ 'z') || ('A' ≤ c && c ≤ 'Z')

/-- ASCII upper-case letters (`[A-Z]` without the `i` flag). -/
def isUpperC (c : Char) : Bool := 'A' ≤ c && c ≤ 'Z'

/-- JavaScript `\w` = `[A-Za-z0-9_]`. -/
def isWordC (c : Char) : Bool := isAlphaC c || isDigitC c || c = '_'

/-- `String.prototype.toLowerCase` on the ASCII range. -/
def lowerS (cs : Chars) : Chars := cs.map Char.toLower

/-- Case-sensitive prefix test. -/
def isPrefixS : Chars → Chars → Bool
  | [], _ => true
  | _ :: _, [] => false
  | a :: as, b :: bs => a = b && isPrefixS as bs

/-- Case-insensitive prefix test (ASCII folding). -/
def isPrefixCI : Chars → Chars → Bool
  | [], _ => true
  | _ :: _, [] => false
  | a :: as, b :: bs => a.toLower = b.toLower && isPrefixCI as bs

/-- `String.prototype.includes` (case-sensitive substring containment). -/
def containsSub (hay needle : Chars) : Bool :=
  match hay with
  | [] => isPrefixS needle []
  | _ :: rest => isPrefixS needle hay || containsSub rest needle

/-- Substring containment after ASCII lower-casing both sides. -/
def containsCI (hay needle : Chars) : Bool := containsSub (lowerS hay) (lowerS needle)

/-- `String.prototype.trim` (both ends, JS whitespace restricted to ASCII). -/
def trimJS (cs : Chars) : Chars :=
  ((cs.dropWhile (fun c => isWsC c)).reverse.dropWhile (fun c => isWsC c)).reverse

mutual

/-- Accumulate the current field of `splitWs` (reversed in `acc`). -/
def splitWsGo : Chars → Chars → List Chars
  | [], acc => [acc.reverse]
  | c :: rest, acc =>
    if isWsC c then acc.reverse :: splitWsSkip rest else splitWsGo rest (c :: acc)

/-- Skip the rest of a whitespace run inside `splitWs`. -/
def splitWsSkip : Chars → List Chars
  | [] => [[]]
  | c :: rest => if isWsC c then splitWsSkip rest else splitWsGo rest [c]

end

/-- `str.split(/\s+/)`: fields between maximal whitespace runs; a leading or
trailing run contributes an empty field, and the empty string yields `[[]]`,
exactly as in JavaScript. -/
def splitWs (cs : Chars) : List Chars := splitWsGo cs []

/-- `parseInt`: skip leading whitespace, optional sign, then a non-empty run
of decimal digits; `none` models `NaN`. -/
def parseIntJS (cs : Chars) : Option Int :=
  let cs := cs.dropWhile (fun c => isWsC c)
  let (neg, cs) :=
    match cs with
    | '-' :: rest => (true, rest)
    | '+' :: rest => (false, rest)
    | _ => (false, cs)
  let digits := cs.takeWhile (fun c => isDigitC c)
  if digits.isEmpty then none
  else
    let n : ℕ := digits.foldl (fun acc c => 10 * acc + (c.toNat - '0'.toNat)) 0
    some (if neg then -(n : Int) else (n : Int))

/-- Worker for `dedupFirst`, carrying the set of already-seen elements. -/
def dedupFirstAux {α} [DecidableEq α] : List α → List α → List α
  | [], _ => []
  | a :: rest, seen =>
    if seen.contains a then dedupFirstAux rest seen
    else a :: dedupFirstAux rest (a :: seen)

/-- First-occurrence deduplication, as `[...new Set(xs)]` in JavaScript. -/
def dedupFirst {α} [DecidableEq α] (l : List α) : List α := dedupFirstAux l []

/-- Decimal rendering of a natural number (digit characters). -/
def natToChars (n : ℕ) : Chars := (toString n).data

end LegalMCP

namespace LegalMCP

/-! ## HTTP client cache (src/index.ts lines 84-117, mirrored in
src/api-client.ts lines 9-45)

The cache is a map from string keys (`endpoint:serializedParams`) to a stored
payload plus insertion timestamp.  `Data` is abstract (`α`); time is `ℕ`
milliseconds as returned by `Date.now()`. -/

/-- Configuration slice relevant to caching: `enableCaching` and
`cacheTimeout` (already converted to milliseconds, as the constructor does
with `config.cacheTimeout * 60 * 1000`). -/
structure CacheCfg where
  enableCaching : Bool
  cacheTimeout : ℕ

/-- The `Map<string, { data, timestamp }>` cache. -/
abbrev CacheMap (α : Type) := List (Chars × α × ℕ)

/-- `Map.get`. -/
def mapGet {α} (m : CacheMap α) (k : Chars) : Option (α × ℕ) :=
  match m with
  | [] => none
  | (k', v) :: rest => if k' = k then some v else mapGet rest k

/-- `Map.delete`. -/
def mapDelete {α} (m : CacheMap α) (k : Chars) : CacheMap α :=
  m.filter (fun e => e.1 ≠ k)

/-- `Map.set` (overwrite or insert). -/
def mapSet {α} (m : CacheMap α) (k : Chars) (v : α × ℕ) : CacheMap α :=
  (k, v) :: mapDelete m k

/-- `IndianKanoonClient.getFromCache` (index.ts 103-112): a hit older than the
timeout is deleted and treated as a miss; the state after the possible
deletion is returned alongside the result. -/
def getFromCache {α} (cfg : CacheCfg) (cache : CacheMap α) (key : Chars) (now : ℕ) :
    Option α × CacheMap α :=
  if !cfg.enableCaching then (none, cache)
  else
    match mapGet cache key with
    | none => (none, cache)
    | some (d, ts) =>
      if now - ts > cfg.cacheTimeout then (none, mapDelete cache key)
      else (some d, cache)

/-- `IndianKanoonClient.setCache` (index.ts 114-117). -/
def setCache {α} (cfg : CacheCfg) (cache : CacheMap α) (key : Chars) (d : α) (now : ℕ) :
    CacheMap α :=
  if !cfg.enableCaching then cache else mapSet cache key (d, now)

/-- One client request (the cache logic of `search`/`getDocument`/
`getDocumentFragments`/`getDocumentMetadata`, index.ts 156-267): consult the
cache; on a miss perform one network call — whose successful JSON body is the
parameter `fresh` — and store it.  The returned `ℕ` counts network calls. -/
def clientRequest {α} (cfg : CacheCfg) (cache : CacheMap α) (key : Chars) (now : ℕ)
    (fresh : α) : α × CacheMap α × ℕ :=
  match getFromCache cfg cache key now with
  | (some d, cache') => (d, cache', 0)
  | (none, cache') => (fresh, setCache cfg cache' key fresh now, 1)

/-- **C3.**  With caching enabled and an entry `(d0, t0)` stored for `key`, a
second identical request at time `t1` within the timeout returns the cached
payload unchanged with zero network calls and an unchanged cache; once the age
exceeds the timeout the entry is treated as absent — the read itself deletes
it — and the next identical request performs exactly one network call and
stores the fresh response (with the new timestamp) in the cache. -/
theorem cache_timeout_contract {α} (cfg : CacheCfg) (cache : CacheMap α)
    (key : Chars) (t0 t1 : ℕ) (d0 fresh : α)
    (henabled : cfg.enableCaching = true)
    (hentry : mapGet cache key = some (d0, t0)) :
    (t1 - t0 ≤ cfg.cacheTimeout →
      clientRequest cfg cache key t1 fresh = (d0, cache, 0)) ∧
    (t1 - t0 > cfg.cacheTimeout →
      getFromCache cfg cache key t1 = (none, mapDelete cache key) ∧
      clientRequest cfg cache key t1 fresh =
        (fresh, mapSet (mapDelete cache key) key (fresh, t1), 1) ∧
      mapGet (clientRequest cfg cache key t1 fresh).2.1 key = some (fresh, t1)) := by
  constructor
  · intro hage
    simp [clientRequest, getFromCache, henabled, hentry, Nat.not_lt.mpr hage,
      show ¬ t1 - t0 > cfg.cacheTimeout from Nat.not_lt.mpr hage]
  · intro hage
    refine ⟨?_, ?_, ?_⟩
    · simp [getFromCache, henabled, hentry, hage]
    · simp [clientRequest, getFromCache, setCache, henabled, hentry, hage]
    · simp [clientRequest, getFromCache, setCache, henabled, hentry, hage, mapSet, mapGet]

/-- Witness for C3 at a concrete state: key "k", payload 5 stored at time
1000, timeout 60000 ms; a hit at 50000 and an expiry at 70000. -/
theorem cache_timeout_contract_witness :
    (clientRequest (α := ℕ) ⟨true, 60000⟩ [("k".data, 5, 1000)] "k".data 50000 9 =
      (5, [("k".data, 5, 1000)], 0)) ∧
    (clientRequest (α := ℕ) ⟨true, 60000⟩ [("k".data, 5, 1000)] "k".data 70000 9 =
      (9, [("k".data, 9, 70000)], 1)) := by
  have h := cache_timeout_contract (α := ℕ) ⟨true, 60000⟩ [("k".data, 5, 1000)]
    "k".data 1000 50000 5 9 rfl (by decide)
  have h' := cache_timeout_contract (α := ℕ) ⟨true, 60000⟩ [("k".data, 5, 1000)]
    "k".data 1000 70000 5 9 rfl (by decide)
  refine ⟨h.1 (by decide), ?_⟩
  have := (h'.2 (by decide)).2.1
  rw [this]
  decide

/-! ## Retry policy of `throttledRequest` (index.ts 119-154) and error
classification (`formatError`, index.ts 609-630)

One `fetch` outcome is either an HTTP response (status, statusText, parsed
body) or a network-level rejection.  The for-loop over `attempt` is embedded
with an explicit `gas` counter (`gas = retries - attempt` at every call), so
the recursion is structural; the body matches the source branch for branch.
`await` delays are recorded in a list (milliseconds); the third component
counts `fetch` calls. -/

/-- Result of one `fetch`. -/
inductive FetchResult (α : Type) where
  | success (status : ℕ) (statusText : String) (body : α)
  | netError (msg : String)
deriving DecidableEq

/-- How `throttledRequest` finishes: a parsed body, a thrown error message,
or — when the loop exhausts all attempts on 429 — `undef`, modelling the
implicit `undefined` return value. -/
inductive ReqOutcome (α : Type) where
  | ok (d : α)
  | thrown (msg : String)
  | undef
deriving DecidableEq

/-- `response.ok` (status in the 2xx range). -/
def statusOkJS (st : ℕ) : Bool := 200 ≤ st && st ≤ 299

/-- The retry loop of `throttledRequest`.  On 429: exponential delay
`2^attempt * 1000` then `continue`; on another non-2xx status an `Error` is
thrown inside the `try`, so the `catch` rethrows it only on the last attempt
and otherwise sleeps the linear delay `1000 * (attempt + 1)`; a network
rejection takes the same `catch` path; a 2xx response returns the body.
Falling out of the loop returns `undefined`. -/
def throttledGo {α} (responses : ℕ → FetchResult α) (retries : ℕ) :
    ℕ → ℕ → List ℕ → ℕ → ReqOutcome α × List ℕ × ℕ
  | 0, _, delays, attempts => (.undef, delays, attempts)
  | gas + 1, attempt, delays, attempts =>
    match responses attempt with
    | .success st stx body =>
      if st = 429 then
        throttledGo responses retries gas (attempt + 1)
          (delays ++ [2 ^ attempt * 1000]) (attempts + 1)
      else if statusOkJS st then (.ok body, delays, attempts + 1)
      else if attempt = retries - 1 then
        (.thrown ("API error: " ++ toString st ++ " " ++ stx), delays, attempts + 1)
      else
        throttledGo responses retries gas (attempt + 1)
          (delays ++ [1000 * (attempt + 1)]) (attempts + 1)
    | .netError m =>
      if attempt = retries - 1 then (.thrown m, delays, attempts + 1)
      else
        throttledGo responses retries gas (attempt + 1)
          (delays ++ [1000 * (attempt + 1)]) (attempts + 1)

/-- `IndianKanoonClient.throttledRequest(endpoint, options, retries = 3)`
restricted to its retry behaviour; the per-request pacing queue is a separate
concern and carries no failure semantics. -/
def throttledRequest {α} (responses : ℕ → FetchResult α) (retries : ℕ) :
    ReqOutcome α × List ℕ × ℕ :=
  throttledGo responses retries retries 0 [] 0

/-- `String.prototype.includes`. -/
def jsIncludes (s sub : String) : Bool := containsSub s.data sub.data

/-- `formatError` (index.ts 609-630), on the error's message string. -/
def formatError (errorMsg : String) (context : String) : String :=
  if jsIncludes errorMsg "401" then
    "Authentication failed: Please check your IndianKanoon API key in settings"
  else if jsIncludes errorMsg "429" then
    "Rate limit exceeded: Please wait a moment and try again"
  else if jsIncludes errorMsg "Network" || jsIncludes errorMsg "fetch" then
    "Network error: Please check your internet connection"
  else if jsIncludes errorMsg "timeout" then
    "Request timeout: The server took too long to respond. Try with fewer results"
  else
    "Error in " ++ context ++ ": " ++ errorMsg ++
      "\nSuggestions: \n1. Verify your API key is valid\n2. Check if the document ID exists\n3. Try with different search terms"

/-- **C5 counterexample.**  With the fixed ceiling of 3 attempts: a server
that always answers 401 is fetched three times (the claim says a non-2xx
status other than 429 fails immediately with no retry), with linear backoff
delays before the error is finally thrown; and a server that always answers
429 makes the loop fall through, returning `undefined` with no error at all —
so rate-limit exhaustion is not signalled as a distinguishable failure. -/
theorem retry_policy_counterexample :
    throttledRequest (fun _ => FetchResult.success 401 "Unauthorized" (0 : ℕ)) 3 =
      (ReqOutcome.thrown "API error: 401 Unauthorized", [1000, 2000], 3) ∧
    throttledRequest (fun _ => FetchResult.success 429 "Too Many Requests" (0 : ℕ)) 3 =
      (ReqOutcome.undef, [1000, 2000, 4000], 3) := by
  constructor <;> rfl

/-- **C5 as amended.**  With the fixed ceiling `retries = 3`: (a) three 429
responses exhaust the loop with exponential backoff (1 s, 2 s, 4 s) and yield
`undefined`, not a classified rate-limit error; (b) any other constant
non-2xx status is retried — not failed immediately — with linear backoff
(1 s, 2 s) and its classified `API error` message is thrown only on the third
attempt; (c) constant network failure takes the same linear-backoff path and
rethrows the network error; (d) `formatError` separates messages containing
"401", then "429", then "Network"/"fetch", then "timeout" into four distinct
user-facing classes. -/
theorem retry_policy_amended {α} (responses : ℕ → FetchResult α) (ctx : String) :
    ((∀ k, k < 3 → ∃ stx b, responses k = FetchResult.success 429 stx b) →
      throttledRequest responses 3 = (ReqOutcome.undef, [1000, 2000, 4000], 3)) ∧
    (∀ st stx b, st ≠ 429 → statusOkJS st = false →
      (∀ k, k < 3 → responses k = FetchResult.success st stx b) →
      throttledRequest responses 3 =
        (ReqOutcome.thrown ("API error: " ++ toString st ++ " " ++ stx), [1000, 2000], 3)) ∧
    (∀ m, (∀ k, k < 3 → responses k = FetchResult.netError m) →
      throttledRequest responses 3 = (ReqOutcome.thrown m, [1000, 2000], 3)) ∧
    (∀ msg, jsIncludes msg "401" = true →
      formatError msg ctx =
        "Authentication failed: Please check your IndianKanoon API key in settings") ∧
    (∀ msg, jsIncludes msg "401" = false → jsIncludes msg "429" = true →
      formatError msg ctx = "Rate limit exceeded: Please wait a moment and try again") ∧
    (∀ msg, jsIncludes msg "401" = false → jsIncludes msg "429" = false →
      (jsIncludes msg "Network" = true ∨ jsIncludes msg "fetch" = true) →
      formatError msg ctx = "Network error: Please check your internet connection") ∧
    (∀ msg, jsIncludes msg "401" = false → jsIncludes msg "429" = false →
      jsIncludes msg "Network" = false → jsIncludes msg "fetch" = false →
      jsIncludes msg "timeout" = true →
      formatError msg ctx =
        "Request timeout: The server took too long to respond. Try with fewer results") := by
  refine ⟨?_, ?_, ?_, ?_, ?_, ?_, ?_⟩
  · intro h
    obtain ⟨s0, b0, h0⟩ := h 0 (by omega)
    obtain ⟨s1, b1, h1⟩ := h 1 (by omega)
    obtain ⟨s2, b2, h2⟩ := h 2 (by omega)
    simp [throttledRequest, throttledGo, h0, h1, h2]
  · intro st stx b hne hok h
    have h0 := h 0 (by omega)
    have h1 := h 1 (by omega)
    have h2 := h 2 (by omega)
    simp [throttledRequest, throttledGo, h0, h1, h2, hne, hok]
  · intro m h
    have h0 := h 0 (by omega)
    have h1 := h 1 (by omega)
    have h2 := h 2 (by omega)
    simp [throttledRequest, throttledGo, h0, h1, h2]
  · intro msg h1
    simp [formatError, h1]
  · intro msg h1 h2
    simp [formatError, h1, h2]
  · intro msg h1 h2 h3
    rcases h3 with h3 | h3 <;> simp [formatError, h1, h2, h3]
  · intro msg h1 h2 h3 h4 h5
    simp [formatError, h1, h2, h3, h4, h5]

/-- Witness for the amended C5 at concrete servers. -/
theorem retry_policy_amended_witness :
    throttledRequest (fun _ => FetchResult.success 429 "busy" (0 : ℕ)) 3 =
      (ReqOutcome.undef, [1000, 2000, 4000], 3) ∧
    throttledRequest (fun _ => FetchResult.success 500 "Server Error" (0 : ℕ)) 3 =
      (ReqOutcome.thrown "API error: 500 Server Error", [1000, 2000], 3) ∧
    throttledRequest (fun _ => FetchResult.netError "fetch failed" (α := ℕ)) 3 =
      (ReqOutcome.thrown "fetch failed", [1000, 2000], 3) ∧
    formatError "fetch failed" "search" =
      "Network error: Please check your internet connection" := by
  refine ⟨?_, ?_, ?_, ?_⟩
  · exact (retry_policy_amended (fun _ => FetchResult.success 429 "busy" (0 : ℕ)) "search").1
      (fun k _ => ⟨"busy", 0, rfl⟩)
  · exact (retry_policy_amended (fun _ => FetchResult.success 500 "Server Error" (0 : ℕ))
      "search").2.1 500 "Server Error" 0 (by decide) (by decide) (fun k _ => rfl)
  · exact (retry_policy_amended (fun _ => FetchResult.netError "fetch failed" (α := ℕ))
      "search").2.2.1 "fetch failed" (fun k _ => rfl)
  · exact (retry_policy_amended (fun _ => FetchResult.netError "fetch failed" (α := ℕ))
      "search").2.2.2.2.2.1 "fetch failed" (by decide) (by decide) (Or.inr (by decide))

/-! ## Court identification and relevance scoring
(`identifyCourt`, index.ts 879-910; `calculateRelevanceScore`, index.ts
988-1005)

Scores are modelled on `ℚ`; only which multipliers fire, and their exact
decimal values, matter to the stated properties.  `new Date().getFullYear()`
is an explicit `currentYear` parameter. -/

/-- The fields of an upstream search result used by court identification and
scoring.  `doctypeStr = some s` models a string-valued `doctype`; `none`
models the numeric case, where `docsource || ''` is used instead. -/
structure SearchDoc where
  doctypeStr : Option String
  docsource : Option String
  publishdate : Option String
  numcitedby : Option ℕ
deriving DecidableEq

/-- `(typeof doc.doctype === 'string' ? doc.doctype : doc.docsource || '').toLowerCase()`. -/
def courtLabel (doc : SearchDoc) : Chars :=
  lowerS (match doc.doctypeStr with
    | some s => s.data
    | none => match doc.docsource with
      | some s => s.data
      | none => [])

/-- The named regional high courts checked at the end of `identifyCourt`. -/
def highCourtNames : List String :=
  ["delhi", "bombay", "madras", "calcutta", "karnataka",
   "kerala", "punjab", "gujarat", "rajasthan"]

/-- `identifyCourt` (index.ts 879-910). -/
def identifyCourt (doc : SearchDoc) : String :=
  let courtStr := courtLabel doc
  if containsSub courtStr "supreme".data || containsSub courtStr "apex".data then "supreme"
  else if containsSub courtStr "high court".data || containsSub courtStr "hc".data then "high"
  else if containsSub courtStr "district".data || containsSub courtStr "sessions".data then
    "district"
  else if containsSub courtStr "tribunal".data || containsSub courtStr "appellate".data then
    "tribunal"
  else if containsSub courtStr "commission".data then "commission"
  else if highCourtNames.any (fun hc => containsSub courtStr hc.data) then "high"
  else "other"

/-- `parseInt(doc.publishdate?.split('-')[0] || '0')`; `none` models `NaN`. -/
def pubYear (doc : SearchDoc) : Option Int :=
  let first : Chars :=
    match doc.publishdate with
    | none => "0".data
    | some s =>
      let f := s.data.takeWhile (fun c => c ≠ '-')
      if f.isEmpty then "0".data else f
  parseIntJS first

/-- The guard `currentYear - year <= 2` (false when the year parses to NaN,
as every comparison with NaN is false). -/
def recencyApplies (doc : SearchDoc) (currentYear : Int) : Bool :=
  match pubYear doc with
  | some y => currentYear - y ≤ 2
  | none => false

/-- `doc.numcitedby || 0`. -/
def citedBy (doc : SearchDoc) : ℕ := doc.numcitedby.getD 0

/-- `calculateRelevanceScore` (index.ts 988-1005).  The `courtHierarchy`
parameter is kept because the source takes it, although — as in the source —
the body never reads it. -/
def calculateRelevanceScore (doc : SearchDoc) (courtHierarchy : List (String × ℚ))
    (currentYear : Int) : ℚ :=
  let courtType := identifyCourt doc
  let score1 : ℚ :=
    if courtType = "supreme" then 1 * 1.5
    else if courtType = "high" then 1 * 1.2
    else if courtType = "district" then 1 * 1
    else if courtType = "tribunal" then 1 * 0.9
    else 1
  let score2 : ℚ := if recencyApplies doc currentYear then score1 * 1.3 else score1
  if citedBy doc > 20 then score2 * 1.4
  else if citedBy doc > 10 then score2 * 1.2
  else score2

/-- The court-hierarchy multiplier as a function of the identified court. -/
def hierarchyFactor (courtType : String) : ℚ :=
  if courtType = "supreme" then 1.5
  else if courtType = "high" then 1.2
  else if courtType = "district" then 1
  else if courtType = "tribunal" then 0.9
  else 1

/-- The recency multiplier. -/
def recencyFactor (doc : SearchDoc) (currentYear : Int) : ℚ :=
  if recencyApplies doc currentYear then 1.3 else 1

/-- The citation-count multiplier. -/
def citationFactor (n : ℕ) : ℚ :=
  if n > 20 then 1.4 else if n > 10 then 1.2 else 1

/-- The claim's reading of "publish year within 2 years of the current
year": an absolute two-sided distance. -/
def specWithinTwoYears (doc : SearchDoc) (currentYear : Int) : Bool :=
  match pubYear doc with
  | some y => (currentYear - y).natAbs ≤ 2
  | none => false

/-- **C4 counterexample.**  The court label "District HC" contains
"district", yet its hierarchy factor is 1.2, not the claimed 1.0: the
substring "hc" is tested first, so the document classifies as a high court
(score 6/5 with no recency or citation bonus).  Moreover a document published
in 2030 scored in 2025 is not within 2 years of the current year, yet the 1.3
recency bonus fires (0.9 × 1.3 = 117/100), because the source's guard
`currentYear - year <= 2` is one-sided. -/
theorem relevance_score_counterexample :
    containsCI "District HC".data "district".data = true ∧
    identifyCourt ⟨some "District HC", none, some "1990-01-01", some 0⟩ = "high" ∧
    calculateRelevanceScore ⟨some "District HC", none, some "1990-01-01", some 0⟩ [] 2025 =
      6 / 5 ∧
    specWithinTwoYears ⟨some "Appellate Tribunal", none, some "2030-05-01", some 0⟩ 2025 =
      false ∧
    calculateRelevanceScore ⟨some "Appellate Tribunal", none, some "2030-05-01", some 0⟩ []
      2025 = 117 / 100 := by
  refine ⟨by decide, by decide, ?_, by decide, ?_⟩
  · unfold calculateRelevanceScore
    rw [show identifyCourt ⟨some "District HC", none, some "1990-01-01", some 0⟩ = "high"
      from by decide]
    rw [show recencyApplies ⟨some "District HC", none, some "1990-01-01", some 0⟩ 2025 = false
      from by decide]
    norm_num [citedBy]
    decide
  · unfold calculateRelevanceScore
    rw [show identifyCourt ⟨some "Appellate Tribunal", none, some "2030-05-01", some 0⟩ =
      "tribunal" from by decide]
    rw [show recencyApplies ⟨some "Appellate Tribunal", none, some "2030-05-01", some 0⟩ 2025 =
      true from by decide]
    norm_num [citedBy]
    rw [if_neg (by decide), if_neg (by decide), if_neg (by decide)]

/-- **C4 as amended.**  The relevance score is exactly the product of the
three factors; the hierarchy factor is 1.5 whenever the court label contains
"supreme" or "apex" (case-insensitive), and 1.0 for labels containing
"district" or "sessions" only when they contain none of the
higher-precedence substrings "supreme", "apex", "high court", "hc"; the
recency factor is 1.3 exactly when the parsed publish year satisfies
`currentYear - year ≤ 2` (a one-sided window that includes future years); the
citation factor is 1.4 for more than 20 citations and 1.2 for 11–20, the two
cases mutually exclusive by construction; unrecognized courts keep factor 1. -/
theorem relevance_score_amended (doc : SearchDoc) (ch : List (String × ℚ))
    (currentYear : Int) :
    calculateRelevanceScore doc ch currentYear =
      hierarchyFactor (identifyCourt doc) * recencyFactor doc currentYear *
        citationFactor (citedBy doc) ∧
    ((containsSub (courtLabel doc) "supreme".data = true ∨
        containsSub (courtLabel doc) "apex".data = true) →
      hierarchyFactor (identifyCourt doc) = 1.5) ∧
    ((containsSub (courtLabel doc) "district".data = true ∨
        containsSub (courtLabel doc) "sessions".data = true) →
      containsSub (courtLabel doc) "supreme".data = false →
      containsSub (courtLabel doc) "apex".data = false →
      containsSub (courtLabel doc) "high court".data = false →
      containsSub (courtLabel doc) "hc".data = false →
      hierarchyFactor (identifyCourt doc) = 1) ∧
    (∀ y, pubYear doc = some y →
      (recencyFactor doc currentYear = 1.3 ↔ currentYear - y ≤ 2)) ∧
    (citedBy doc > 20 → citationFactor (citedBy doc) = 1.4) ∧
    (10 < citedBy doc → citedBy doc ≤ 20 → citationFactor (citedBy doc) = 1.2) := by
  refine ⟨?_, ?_, ?_, ?_, ?_, ?_⟩
  · unfold calculateRelevanceScore hierarchyFactor recencyFactor citationFactor
    by_cases h1 : identifyCourt doc = "supreme" <;>
      by_cases h2 : identifyCourt doc = "high" <;>
      by_cases h3 : identifyCourt doc = "district" <;>
      by_cases h4 : identifyCourt doc = "tribunal" <;>
      by_cases h5 : recencyApplies doc currentYear = true <;>
      by_cases h6 : citedBy doc > 20 <;>
      by_cases h7 : citedBy doc > 10 <;>
      simp only [h1, h2, h3, h4, h5, h6, h7, if_true, if_false, eq_self_iff_true,
        Bool.not_eq_true, if_pos, if_neg, not_false_iff] <;>
      simp [h1, h2, h3, h4, h5, h6, h7] <;> norm_num
  · intro h
    have hct : identifyCourt doc = "supreme" := by
      unfold identifyCourt
      rcases h with h | h <;> simp [h]
    rw [hct]
    unfold hierarchyFactor
    rw [if_pos rfl]
  · intro h h1 h2 h3 h4
    have hct : identifyCourt doc = "district" := by
      unfold identifyCourt
      rcases h with h | h <;> simp [h, h1, h2, h3, h4]
    rw [hct]
    unfold hierarchyFactor
    rw [if_neg (by decide), if_neg (by decide), if_pos rfl]
  · intro y hy
    unfold recencyFactor recencyApplies
    rw [hy]
    constructor
    · intro h
      by_contra hc
      simp [hc] at h
      norm_num at h
    · intro h
      simp [h]
  · intro h
    simp [citationFactor, h]
  · intro h1 h2
    have : ¬ citedBy doc > 20 := by omega
    simp [citationFactor, this, h1]

/-- Witness for the amended C4: a Supreme Court document from the current
year cited 25 times scores 1.5 × 1.3 × 1.4 = 273/100. -/
theorem relevance_score_amended_witness :
    calculateRelevanceScore ⟨some "Supreme Court of India", none, some "2025-02-01", some 25⟩
        [] 2025 =
      hierarchyFactor
          (identifyCourt ⟨some "Supreme Court of India", none, some "2025-02-01", some 25⟩) *
        recencyFactor ⟨some "Supreme Court of India", none, some "2025-02-01", some 25⟩ 2025 *
        citationFactor
          (citedBy ⟨some "Supreme Court of India", none, some "2025-02-01", some 25⟩) ∧
    hierarchyFactor
        (identifyCourt ⟨some "Supreme Court of India", none, some "2025-02-01", some 25⟩) =
      1.5 ∧
    citationFactor
        (citedBy ⟨some "Supreme Court of India", none, some "2025-02-01", some 25⟩) = 1.4 := by
  refine ⟨(relevance_score_amended _ [] 2025).1,
    (relevance_score_amended _ [] 2025).2.1 (Or.inl (by decide)),
    (relevance_score_amended _ [] 2025).2.2.2.2.1 (by decide)⟩

/-! ## Relevance-threshold filtering and the low-relevance fallback
(`search_legal_precedents`, index.ts 1199-1263)

After scoring, the tool filters by the caller's threshold, sorts by
descending score, and takes the top `limit`; if that leaves nothing although
scored candidates existed, it returns the best `min 5 limit` of all scored
documents with a per-case `relevanceNote` and status `LOW_RELEVANCE`.
`Array.prototype.sort` with comparator `(a, b) => b.relevanceScore -
a.relevanceScore` is a stable descending sort, embedded as the (unique)
stable insertion sort for that order. -/

/-- A scored search result; only the identity and the score take part in the
selection logic. -/
structure ScoredCase where
  tid : ℕ
  relevanceScore : ℚ
deriving DecidableEq

/-- A formatted response entry: the underlying document plus the
`relevanceNote` field, present exactly on fallback results. -/
structure FormattedCase where
  doc : ScoredCase
  relevanceNote : Option String
deriving DecidableEq

/-- The slice of the tool response the selection stage determines. -/
structure SelectResponse where
  searchStatus : String
  cases : List FormattedCase
deriving DecidableEq

/-- Stable descending insertion for `sortByScoreDesc`. -/
def insertDesc (d : ScoredCase) : List ScoredCase → List ScoredCase
  | [] => [d]
  | x :: xs =>
    if x.relevanceScore ≤ d.relevanceScore then d :: x :: xs else x :: insertDesc d xs

/-- `arr.sort((a, b) => b.relevanceScore - a.relevanceScore)`: the stable
reordering by descending score (insertion keeps an earlier element in front
of later elements of equal score). -/
def sortByScoreDesc : List ScoredCase → List ScoredCase
  | [] => []
  | x :: xs => insertDesc x (sortByScoreDesc xs)

/-- The per-case annotation of the fallback branch. -/
def lowRelevanceNote : String := "Below threshold but best available matches"

/-- The selection stage of `search_legal_precedents` (index.ts 1199-1263):
threshold filter, descending sort, `slice(0, limit)`, and the
`LOW_RELEVANCE` fallback taking `slice(0, Math.min(5, limit))` of all scored
documents when the filter emptied the result while scored candidates
existed. -/
def selectResults (scoredDocs : List ScoredCase) (relevanceThreshold : ℚ)
    (limit : ℕ) : SelectResponse :=
  let relevantDocs := scoredDocs.filter (fun d => relevanceThreshold ≤ d.relevanceScore)
  let topDocs := (sortByScoreDesc relevantDocs).take limit
  if topDocs.length = 0 ∧ scoredDocs.length > 0 then
    let bestAvailable := (sortByScoreDesc scoredDocs).take (min 5 limit)
    ⟨"LOW_RELEVANCE", bestAvailable.map (fun d => ⟨d, some lowRelevanceNote⟩)⟩
  else
    ⟨"SUCCESS", topDocs.map (fun d => ⟨d, none⟩)⟩

/-- `insertDesc` preserves length. -/
theorem length_insertDesc (d : ScoredCase) (l : List ScoredCase) :
    (insertDesc d l).length = l.length + 1 := by
  induction l with
  | nil => rfl
  | cons x xs ih =>
    unfold insertDesc
    split <;> simp [ih]

/-- `sortByScoreDesc` preserves length. -/
theorem length_sortByScoreDesc (l : List ScoredCase) :
    (sortByScoreDesc l).length = l.length := by
  induction l with
  | nil => rfl
  | cons x xs ih => simp [sortByScoreDesc, length_insertDesc, ih]

/-- **C2.**  If every scored document falls below the threshold and scored
candidates exist (and the limit is at least 1, which the tool schema
guarantees), the response has status `LOW_RELEVANCE`, its case list is the
non-empty list of the best-scoring `min 5 limit` documents, and every
returned case carries the below-threshold `relevanceNote`. -/
theorem low_relevance_fallback (scoredDocs : List ScoredCase) (threshold : ℚ)
    (limit : ℕ) (hne : scoredDocs ≠ []) (hlim : 1 ≤ limit)
    (hbelow : ∀ d ∈ scoredDocs, d.relevanceScore < threshold) :
    (selectResults scoredDocs threshold limit).searchStatus = "LOW_RELEVANCE" ∧
    (selectResults scoredDocs threshold limit).cases ≠ [] ∧
    (selectResults scoredDocs threshold limit).cases.length ≤ min 5 limit ∧
    (selectResults scoredDocs threshold limit).cases.map (fun c => c.doc) =
      (sortByScoreDesc scoredDocs).take (min 5 limit) ∧
    (∀ c ∈ (selectResults scoredDocs threshold limit).cases,
      c.relevanceNote = some lowRelevanceNote) := by
  have hfilter : scoredDocs.filter (fun d => threshold ≤ d.relevanceScore) = [] := by
    rw [List.filter_eq_nil_iff]
    intro d hd
    simpa using not_le.mpr (hbelow d hd)
  have hpos : scoredDocs.length > 0 := List.length_pos.mpr hne
  have hcond : ((sortByScoreDesc
      (scoredDocs.filter (fun d => threshold ≤ d.relevanceScore))).take limit).length = 0 ∧
      scoredDocs.length > 0 := by
    rw [hfilter]
    exact ⟨by simp [sortByScoreDesc], hpos⟩
  have hsel : selectResults scoredDocs threshold limit =
      ⟨"LOW_RELEVANCE", ((sortByScoreDesc scoredDocs).take (min 5 limit)).map
        (fun d => ⟨d, some lowRelevanceNote⟩)⟩ := by
    unfold selectResults
    rw [if_pos hcond]
  rw [hsel]
  have hlen : ((sortByScoreDesc scoredDocs).take (min 5 limit)).length =
      min (min 5 limit) scoredDocs.length := by
    rw [List.length_take, length_sortByScoreDesc]
  refine ⟨rfl, ?_, ?_, ?_, ?_⟩
  · intro hmapnil
    have : ((sortByScoreDesc scoredDocs).take (min 5 limit)).length = 0 := by
      have := congrArg List.length hmapnil
      simpa using this
    rw [hlen] at this
    omega
  · simp only [List.length_map, hlen]
    exact le_trans (min_le_left _ _) le_rfl
  · rw [List.map_map]
    have : ((fun c : FormattedCase => c.doc) ∘
        fun d => FormattedCase.mk d (some lowRelevanceNote)) = id := rfl
    rw [this, List.map_id]
  · intro c hc
    simp only [List.mem_map] at hc
    obtain ⟨d, _, rfl⟩ := hc
    rfl

/-- Witness for C2: two documents scoring 2 and 3 against threshold 10 with
limit 20 produce the two best-scoring cases, annotated, under
`LOW_RELEVANCE`. -/
theorem low_relevance_fallback_witness :
    (selectResults [⟨1, 2⟩, ⟨2, 3⟩] 10 20).searchStatus = "LOW_RELEVANCE" ∧
    (selectResults [⟨1, 2⟩, ⟨2, 3⟩] 10 20).cases ≠ [] := by
  have h := low_relevance_fallback [⟨1, 2⟩, ⟨2, 3⟩] 10 20 (by decide) (by decide)
    (by
      intro d hd
      simp only [List.mem_cons, List.not_mem_nil, or_false] at hd
      rcases hd with rfl | rfl <;> norm_num)
  exact ⟨h.1, h.2.1⟩

/-! ## A small pattern language for the source's marker regexes

Every regex in `legalMarkers` (index.ts 1369-1623) is built from
case-insensitive literals, `\s+`, `[\s-]?`, `\d+` and `,?`.  `RegExp.test`
has purely existential semantics ("some substring matches"), so a
backtracking recogniser suffices and the engine's preference order is
irrelevant here. -/

/-- One element of a marker pattern. -/
inductive Piece where
  | lit (s : String)
  | ws1
  | wsDashOpt
  | digits1
  | commaOpt
deriving DecidableEq

/-- Does the pattern match a prefix of `cs`?  A `\s+` (or `\d+`) element
matches any non-empty prefix of the maximal whitespace (digit) run, which is
exactly what a backtracking engine explores; existential semantics make the
exploration order irrelevant. -/
def matchPieces : List Piece → Chars → Bool
  | [], _ => true
  | Piece.lit s :: ps, cs =>
    isPrefixCI s.data cs && matchPieces ps (cs.drop s.length)
  | Piece.ws1 :: ps, cs =>
    (List.range (cs.takeWhile (fun c => isWsC c)).length).any
      (fun k => matchPieces ps (cs.drop (k + 1)))
  | Piece.wsDashOpt :: ps, cs =>
    matchPieces ps cs ||
      (match cs with
       | c :: cs' => (isWsC c || c = '-') && matchPieces ps cs'
       | [] => false)
  | Piece.digits1 :: ps, cs =>
    (List.range (cs.takeWhile (fun c => isDigitC c)).length).any
      (fun k => matchPieces ps (cs.drop (k + 1)))
  | Piece.commaOpt :: ps, cs =>
    matchPieces ps cs ||
      (match cs with
       | c :: cs' => (c = ',') && matchPieces ps cs'
       | [] => false)

/-- `pattern.test(text)`: the pattern matches at some position. -/
def reTest (p : List Piece) : Chars → Bool
  | [] => matchPieces p []
  | c :: cs' => matchPieces p (c :: cs') || reTest p cs'

/-- A regex whose spaces are literal space characters (e.g. `/we hold that/i`). -/
def lp (s : String) : List Piece := [Piece.lit s]

/-- Split a character list at each single space (the shape of the source's
multi-word `\s+` regexes). -/
def splitSpaceGo : Chars → Chars → List Chars
  | [], acc => [acc.reverse]
  | c :: rest, acc =>
    if c = ' ' then acc.reverse :: splitSpaceGo rest [] else splitSpaceGo rest (c :: acc)

/-- A regex of words separated by `\s+` (e.g. `/per\s+curiam/i`). -/
def wp (s : String) : List Piece :=
  match splitSpaceGo s.data [] with
  | [] => []
  | w :: rest =>
    Piece.lit (String.mk w) ::
      rest.foldr (fun x acc => Piece.ws1 :: Piece.lit (String.mk x) :: acc) []

/-! ## The `legalMarkers` table (index.ts 1369-1623), category by category,
in the source's insertion order within each list. -/

/-- `legalMarkers.ratioDecidendi`. -/
def ratioDecidendiPatterns : List (List Piece) :=
  [lp "we hold that", lp "it is settled law", lp "the principle is",
   lp "we are of the opinion",
   wp "the law is well" ++ [Piece.wsDashOpt, Piece.lit "settled"],
   lp "it is trite law", lp "the ratio of", lp "therefore guilty",
   lp "conviction is confirmed", lp "appeal is dismissed", lp "petition is allowed",
   lp "we conclude that",
   [Piece.lit "accordingly", Piece.commaOpt, Piece.ws1, Piece.lit "we",
    Piece.ws1, Piece.lit "hold"],
   wp "the legal position is", wp "it is no longer res integra",
   wp "the proposition of law", wp "we answer the reference",
   wp "our answer to the question", wp "the principle that emerges",
   wp "it must be held", wp "we have no hesitation", lp "undoubtedly",
   lp "unquestionably", wp "it is beyond dispute", wp "there can be no doubt",
   wp "the inevitable conclusion", wp "we are satisfied that",
   wp "accordingly convicted", wp "sentence is confirmed",
   wp "acquittal is set aside", wp "conviction is set aside",
   wp "appeal is allowed", wp "writ petition is allowed", wp "bail is granted",
   wp "bail is rejected", wp "quashing is allowed", wp "proceedings are quashed",
   wp "FIR is quashed",
   [Piece.lit "charge", Piece.wsDashOpt, Piece.lit "sheet", Piece.ws1,
    Piece.lit "is", Piece.ws1, Piece.lit "quashed"],
   wp "speaking for the bench", wp "unanimous decision", wp "majority opinion",
   wp "per curiam"]

/-- `legalMarkers.obiterDicta`. -/
def obiterDictaPatterns : List (List Piece) :=
  [lp "it may be noted", lp "incidentally", lp "in passing", lp "by the way",
   lp "parenthetically", wp "en passant", wp "for the sake of completeness",
   wp "though not necessary", wp "even assuming", wp "assuming without deciding",
   wp "without expressing any opinion", wp "academic interest", lp "hypothetically",
   lp "arguably", lp "perhaps", wp "it appears", wp "it seems", wp "one may argue",
   wp "for what it is worth", lp "tangentially", wp "as an aside",
   wp "not strictly necessary", wp "abundance of caution", wp "without going into",
   wp "need not be decided", wp "left open", wp "not called upon",
   wp "beyond the scope"]

/-- `legalMarkers.distinguishing`. -/
def distinguishingPatterns : List (List Piece) :=
  [lp "however in the present case", lp "facts are different", lp "not applicable here",
   lp "distinguishable from", lp "can be distinguished", wp "materially different",
   wp "factually distinct", wp "on facts", wp "peculiar facts",
   wp "special circumstances", wp "unlike in", wp "contrary to", wp "as opposed to",
   wp "in contrast", lp "dissimilar", lp "inapposite", wp "has no application",
   wp "cannot be applied", wp "different context", wp "not on all fours",
   wp "stands on different footing", wp "different considerations",
   wp "exceptional case", wp "sui generis"]

/-- `legalMarkers.following`. -/
def followingPatterns : List (List Piece) :=
  [lp "following the decision", lp "relying on", lp "as held in",
   lp "applying the principle", wp "in line with", wp "consistent with",
   wp "as observed in", wp "as laid down", lp "reiterating", lp "reaffirming",
   wp "endorsing the view", wp "adopting the reasoning", wp "squarely covered",
   wp "directly applicable", wp "on all fours", wp "binding precedent",
   wp "authoritative pronouncement", wp "ratio applies", wp "principle enunciated",
   wp "dictum in"]

/-- `legalMarkers.overruling`. -/
def overrulingPatterns : List (List Piece) :=
  [lp "overruled", wp "no longer good law", wp "cannot be sustained",
   wp "per incuriam", wp "wrongly decided", wp "erroneous view", wp "departed from",
   wp "not approved", lp "doubted", lp "reconsidered", wp "contrary to law",
   lp "unsustainable", wp "bad in law", wp "set aside the judgment", lp "reversed",
   wp "cannot be accepted", wp "rejected the contention", lp "disapproved"]

/-- `legalMarkers.proceduralDirections`. -/
def proceduralDirectionsPatterns : List (List Piece) :=
  [wp "directed to", wp "it is ordered", wp "registry is directed",
   wp "shall comply", wp "immediate effect", wp "with immediate effect",
   lp "forthwith", lp "expeditiously",
   [Piece.lit "within", Piece.ws1, Piece.digits1, Piece.ws1, Piece.lit "weeks"],
   wp "time bound", wp "liberty to apply", wp "list the matter", wp "remanded to",
   wp "sent back", wp "fresh consideration", wp "de novo", wp "status quo",
   wp "interim order", wp "till further orders", lp "stayed"]

/-- `legalMarkers.concessionsAdmissions`. -/
def concessionsAdmissionsPatterns : List (List Piece) :=
  [wp "fairly conceded", wp "admitted that", wp "not disputed",
   wp "not in controversy", wp "common ground", wp "undisputed fact",
   wp "accepted position", lp "admittedly", lp "confessedly", wp "no quarrel",
   wp "rightly conceded", wp "candidly admitted", wp "on admission",
   wp "learned counsel agrees", wp "not pressed", wp "given up", lp "abandoned",
   lp "withdrawn"]

/-- `legalMarkers.judicialDisagreement`. -/
def judicialDisagreementPatterns : List (List Piece) :=
  [wp "with respect", wp "with due respect", wp "respectfully disagree",
   wp "unable to agree", wp "different view", wp "minority view",
   wp "dissenting opinion", wp "contra view", wp "alternative view",
   wp "however i would", wp "in my opinion", wp "divergent views",
   wp "conflict of opinion", wp "referring to larger bench", wp "reference is made",
   wp "requires reconsideration", wp "doubt is expressed"]

/-- `legalMarkers.statutoryInterpretation`. -/
def statutoryInterpretationPatterns : List (List Piece) :=
  [wp "plain meaning", wp "literal interpretation", wp "legislative intent",
   wp "object and purpose", wp "mischief rule", wp "golden rule",
   wp "harmonious construction", wp "purposive interpretation",
   wp "strict construction", wp "liberal construction", wp "ejusdem generis",
   wp "noscitur a sociis", wp "expressio unius", wp "reading down",
   wp "reading into", wp "casus omissus", wp "statutory scheme",
   wp "contextual interpretation", wp "beneficial construction", wp "penal statute"]

/-- `legalMarkers.evidenceEvaluation`. -/
def evidenceEvaluationPatterns : List (List Piece) :=
  [wp "cogent evidence", wp "credible witness", wp "unreliable testimony",
   wp "contradictions in evidence", wp "material improvement", lp "embellishment",
   wp "tutored witness", wp "interested witness", wp "independent witness",
   lp "corroboration", wp "circumstantial evidence", wp "chain of circumstances",
   wp "preponderance of probability", wp "beyond reasonable doubt",
   wp "benefit of doubt", wp "hostile witness", wp "dying declaration",
   wp "res gestae", wp "admission against interest", wp "burden of proof",
   wp "onus shifts", lp "presumption", lp "rebuttal"]

/-- The `legalMarkers` object, in its property insertion order — the order
`Object.entries` iterates in `extract_legal_principles` (index.ts 1632). -/
def legalMarkers : List (String × List (List Piece)) :=
  [("ratioDecidendi", ratioDecidendiPatterns),
   ("obiterDicta", obiterDictaPatterns),
   ("distinguishing", distinguishingPatterns),
   ("following", followingPatterns),
   ("overruling", overrulingPatterns),
   ("proceduralDirections", proceduralDirectionsPatterns),
   ("concessionsAdmissions", concessionsAdmissionsPatterns),
   ("judicialDisagreement", judicialDisagreementPatterns),
   ("statutoryInterpretation", statutoryInterpretationPatterns),
   ("evidenceEvaluation", evidenceEvaluationPatterns)]

/-- `patterns.filter(p => p.test(text)).length > 0` for one category. -/
def categoryMatches (pats : List (List Piece)) (text : Chars) : Bool :=
  pats.any (fun p => reTest p text)

/-- The `switch (category)` of the weight-assignment loop (index.ts
1638-1697), acting on the running `legalWeight`. -/
def applyCategory (cur : String) (category : String) : String :=
  if category = "ratioDecidendi" then "Ratio Decidendi"
  else if category = "overruling" then
    if cur ≠ "Ratio Decidendi" then "Overruling Precedent" else cur
  else if category = "statutoryInterpretation" then
    if cur ≠ "Ratio Decidendi" ∧ cur ≠ "Overruling Precedent" then
      "Statutory Interpretation"
    else cur
  else if category = "evidenceEvaluation" then
    if cur ≠ "Ratio Decidendi" ∧ cur ≠ "Overruling Precedent" ∧
        cur ≠ "Statutory Interpretation" then
      "Evidence Analysis"
    else cur
  else if category = "following" then
    if cur = "Supporting Observation" then "Following Precedent" else cur
  else if category = "distinguishing" then
    if cur = "Supporting Observation" then "Distinguishing" else cur
  else if category = "proceduralDirections" then
    if cur = "Supporting Observation" then "Procedural Direction" else cur
  else if category = "concessionsAdmissions" then
    if cur = "Supporting Observation" then "Concession/Admission" else cur
  else if category = "judicialDisagreement" then
    if cur = "Supporting Observation" then "Judicial Disagreement" else cur
  else if category = "obiterDicta" then
    if cur = "Supporting Observation" then "Obiter Dicta" else cur
  else cur

/-- The per-category match bits of a fragment, in iteration order. -/
def classifierProfile (text : Chars) : List (String × Bool) :=
  legalMarkers.map (fun cp => (cp.1, categoryMatches cp.2 text))

/-- The `for (const [category, patterns] of Object.entries(legalMarkers))`
loop folded over the match bits, starting from the default label. -/
def resolveFold (profile : List (String × Bool)) : String :=
  profile.foldl (fun cur cb => if cb.2 then applyCategory cur cb.1 else cur)
    "Supporting Observation"

/-- The final `legalWeight` label the classifier assigns to a fragment. -/
def legalWeightOf (text : Chars) : String := resolveFold (classifierProfile text)

/-- Modelled from the spec's words (§4.4): resolve the label by a fixed
priority list — the first matching category in the list wins. -/
def priorityResolve (order : List (String × String))
    (profile : List (String × Bool)) : String :=
  match order.find? (fun cl => (profile.lookup cl.1).getD false) with
  | some cl => cl.2
  | none => "Supporting Observation"

/-- The priority order the claim states: ratio decidendi > overruling >
statutory interpretation > evidence analysis > following > distinguishing >
procedural direction > concession/admission > judicial disagreement >
obiter dicta. -/
def specPriorityOrder : List (String × String) :=
  [("ratioDecidendi", "Ratio Decidendi"),
   ("overruling", "Overruling Precedent"),
   ("statutoryInterpretation", "Statutory Interpretation"),
   ("evidenceEvaluation", "Evidence Analysis"),
   ("following", "Following Precedent"),
   ("distinguishing", "Distinguishing"),
   ("proceduralDirections", "Procedural Direction"),
   ("concessionsAdmissions", "Concession/Admission"),
   ("judicialDisagreement", "Judicial Disagreement"),
   ("obiterDicta", "Obiter Dicta")]

/-- The priority order the code actually implements: the six categories
guarded by `legalWeight === "Supporting Observation"` are decided by
iteration order (obiter dicta first), not by the spec's order. -/
def codePriorityOrder : List (String × String) :=
  [("ratioDecidendi", "Ratio Decidendi"),
   ("overruling", "Overruling Precedent"),
   ("statutoryInterpretation", "Statutory Interpretation"),
   ("evidenceEvaluation", "Evidence Analysis"),
   ("obiterDicta", "Obiter Dicta"),
   ("distinguishing", "Distinguishing"),
   ("following", "Following Precedent"),
   ("proceduralDirections", "Procedural Direction"),
   ("concessionsAdmissions", "Concession/Admission"),
   ("judicialDisagreement", "Judicial Disagreement")]

/-- The spec-side label of a fragment. -/
def specWeightOf (text : Chars) : String :=
  priorityResolve specPriorityOrder (classifierProfile text)

/-- Over every combination of category match bits, the source's conditional
chain resolves to the first matching category of `codePriorityOrder`. -/
theorem resolveFold_eq_codePriority (b1 b2 b3 b4 b5 b6 b7 b8 b9 b10 : Bool) :
    resolveFold
      [("ratioDecidendi", b1), ("obiterDicta", b2), ("distinguishing", b3),
       ("following", b4), ("overruling", b5), ("proceduralDirections", b6),
       ("concessionsAdmissions", b7), ("judicialDisagreement", b8),
       ("statutoryInterpretation", b9), ("evidenceEvaluation", b10)] =
    priorityResolve codePriorityOrder
      [("ratioDecidendi", b1), ("obiterDicta", b2), ("distinguishing", b3),
       ("following", b4), ("overruling", b5), ("proceduralDirections", b6),
       ("concessionsAdmissions", b7), ("judicialDisagreement", b8),
       ("statutoryInterpretation", b9), ("evidenceEvaluation", b10)] := by
  revert b1 b2 b3 b4 b5 b6 b7 b8 b9 b10
  decide

/-- **C1 counterexample.**  The fragment "Incidentally, relying on Kumar."
matches both the following-precedent category ("relying on") and the
obiter-dicta category ("incidentally").  The claimed priority order puts
following above obiter dicta, so the claim demands "Following Precedent";
the classifier produces "Obiter Dicta", because the six equality-guarded
categories are resolved by object iteration order (obiter dicta first). -/
theorem legal_weight_counterexample :
    categoryMatches followingPatterns "Incidentally, relying on Kumar.".data = true ∧
    categoryMatches obiterDictaPatterns "Incidentally, relying on Kumar.".data = true ∧
    legalWeightOf "Incidentally, relying on Kumar.".data = "Obiter Dicta" ∧
    specWeightOf "Incidentally, relying on Kumar.".data = "Following Precedent" := by
  refine ⟨by decide, by decide, by decide, by decide⟩

/-- **C1 as amended.**  The final label is resolved by the fixed priority
order that the code implements — ratio decidendi > overruling > statutory
interpretation > evidence analysis > obiter dicta > distinguishing >
following > procedural direction > concession/admission > judicial
disagreement > default "supporting observation" — i.e. the four top
categories in the spec's order, but the remaining six in iteration order
with obiter dicta first.  In particular every fragment containing
"we hold that" is labelled "Ratio Decidendi" regardless of other matches. -/
theorem legal_weight_amended (text : Chars) :
    legalWeightOf text = priorityResolve codePriorityOrder (classifierProfile text) ∧
    (reTest (lp "we hold that") text = true →
      legalWeightOf text = "Ratio Decidendi") := by
  have hmain : legalWeightOf text =
      priorityResolve codePriorityOrder (classifierProfile text) :=
    resolveFold_eq_codePriority
      (categoryMatches ratioDecidendiPatterns text)
      (categoryMatches obiterDictaPatterns text)
      (categoryMatches distinguishingPatterns text)
      (categoryMatches followingPatterns text)
      (categoryMatches overrulingPatterns text)
      (categoryMatches proceduralDirectionsPatterns text)
      (categoryMatches concessionsAdmissionsPatterns text)
      (categoryMatches judicialDisagreementPatterns text)
      (categoryMatches statutoryInterpretationPatterns text)
      (categoryMatches evidenceEvaluationPatterns text)
  refine ⟨hmain, ?_⟩
  intro h
  have hr : categoryMatches ratioDecidendiPatterns text = true := by
    unfold categoryMatches ratioDecidendiPatterns
    simp only [List.any_cons, Bool.or_eq_true]
    exact Or.inl h
  rw [hmain]
  show priorityResolve codePriorityOrder
    [("ratioDecidendi", categoryMatches ratioDecidendiPatterns text),
     ("obiterDicta", categoryMatches obiterDictaPatterns text),
     ("distinguishing", categoryMatches distinguishingPatterns text),
     ("following", categoryMatches followingPatterns text),
     ("overruling", categoryMatches overrulingPatterns text),
     ("proceduralDirections", categoryMatches proceduralDirectionsPatterns text),
     ("concessionsAdmissions", categoryMatches concessionsAdmissionsPatterns text),
     ("judicialDisagreement", categoryMatches judicialDisagreementPatterns text),
     ("statutoryInterpretation", categoryMatches statutoryInterpretationPatterns text),
     ("evidenceEvaluation", categoryMatches evidenceEvaluationPatterns text)] =
    "Ratio Decidendi"
  unfold priorityResolve codePriorityOrder
  simp [List.lookup, hr]

/-- Witness for the amended C1: a fragment containing "we hold that". -/
theorem legal_weight_amended_witness :
    legalWeightOf "We hold that the view is erroneous.".data = "Ratio Decidendi" :=
  (legal_weight_amended "We hold that the view is erroneous.".data).2 (by decide)

/-! ## Section validation (`validateSection`, index.ts 276-340) -/

/-- The result record of `validateSection`. -/
structure SectionValidation where
  isValid : Bool
  suggestion : Option String
  nearestValid : Option (List String)
deriving DecidableEq

/-- `VALID_IPC_SECTIONS` (min, max). -/
def VALID_IPC_SECTIONS : ℕ × ℕ := (1, 511)

/-- `VALID_BNS_SECTIONS`. -/
def VALID_BNS_SECTIONS : ℕ × ℕ := (1, 358)

/-- `VALID_CRPC_SECTIONS`. -/
def VALID_CRPC_SECTIONS : ℕ × ℕ := (1, 484)

/-- `sectionNum.match(/^(\d+)([A-Z])?$/)`: the numeric part and the optional
upper-case suffix letter; `none` on no match. -/
def sectionNumParse (cs : Chars) : Option (ℕ × Option Char) :=
  let ds := cs.takeWhile (fun c => isDigitC c)
  if ds.isEmpty then none
  else
    let n := ds.foldl (fun acc c => 10 * acc + (c.toNat - '0'.toNat)) 0
    match cs.drop ds.length with
    | [] => some (n, none)
    | [c] => if isUpperC c then some (n, some c) else none
    | _ => none

/-- The `commonMistakes` typo table. -/
def commonMistakes : List (String × List String) :=
  [("823", ["323", "423"]), ("523", ["323", "423"]),
   ("325", ["323", "324", "326"]), ("121", ["120", "120A", "120B"]),
   ("412", ["411", "413", "414"]), ("299", ["299", "300", "302"]),
   ("380", ["379", "381", "382"])]

/-- `validateSection` (index.ts 276-340). -/
def validateSection (sectionNum : String) (codeType : String) : SectionValidation :=
  match sectionNumParse sectionNum.data with
  | none => ⟨false, some "Invalid section format", none⟩
  | some (num, _suffix) =>
    let range :=
      if codeType = "BNS" then VALID_BNS_SECTIONS
      else if codeType = "CrPC" then VALID_CRPC_SECTIONS
      else VALID_IPC_SECTIONS
    if range.1 ≤ num ∧ num ≤ range.2 then ⟨true, none, none⟩
    else
      let fromTable := (commonMistakes.lookup (String.mk (natToChars num))).getD []
      let stripped : List String :=
        if num > range.2 ∧ num > 100 then
          let withoutFirst := (natToChars num).drop 1
          if withoutFirst.length > 0 then
            match parseIntJS withoutFirst with
            | some s =>
              if (range.1 : Int) ≤ s ∧ s ≤ (range.2 : Int) then [String.mk withoutFirst]
              else []
            | none => []
          else []
        else []
      let nearby : List String :=
        ([-1, 1, -2, 2, -10, 10] : List Int).filterMap (fun offset =>
          let nb := (num : Int) + offset
          if (range.1 : Int) ≤ nb ∧ nb ≤ (range.2 : Int) then
            some (String.mk (natToChars nb.toNat))
          else none)
      ⟨false,
       some ("Section " ++ sectionNum ++ " appears invalid for " ++ codeType),
       some ((dedupFirst (fromTable ++ stripped ++ nearby)).take 5)⟩

/-! ## Section and concept extraction (`preprocessQuery`, index.ts 357-450)

The four `sectionPatterns` regexes and three `conceptPatterns` regexes carry
captures and run under `exec` with the `g` flag, so each is embedded as a
hand-coded left-to-right scanner.  A scanner carries a `prevWord` flag — is
the character before the current position a `\w` character? — which decides
`\b`, and a fuel argument (initialised to the text length, an upper bound on
the number of single-character steps) keeping the recursion structural. -/

/-- `\d+[A-Z]?` under flag `i` at the head of `cs`: the token and the rest.
The capture ends the pattern, so the greedy take needs no backtracking. -/
def matchSecTok (cs : Chars) : Option (Chars × Chars) :=
  let ds := cs.takeWhile (fun c => isDigitC c)
  if ds.isEmpty then none
  else
    match cs.drop ds.length with
    | c :: rest' => if isAlphaC c then some (ds ++ [c], rest') else some (ds, c :: rest')
    | [] => some (ds, [])

/-- `(?:\s*,\s*\d+[A-Z]?)*`, greedy: further comma-separated tokens.  Each
iteration consumes at least two characters, so fuel `cs.length` suffices. -/
def matchCommaToks : ℕ → Chars → List Chars × Chars
  | 0, cs => ([], cs)
  | fuel + 1, cs =>
    let ws1l := cs.takeWhile (fun c => isWsC c)
    match cs.drop ws1l.length with
    | ',' :: afterComma =>
      let ws2 := afterComma.takeWhile (fun c => isWsC c)
      match matchSecTok (afterComma.drop ws2.length) with
      | some (tok, rest) =>
        let mr := matchCommaToks fuel rest
        (tok :: mr.1, mr.2)
      | none => ([], cs)
    | _ => ([], cs)

/-- After the prefix of pattern 1 or 2 (`sections?` resp. `u\/s`): `\s+`
then the captured comma list.  Returns the token list (which equals
`match[1].split(/\s*,\s*/)`, since tokens contain no comma or whitespace)
and the remainder after the whole match. -/
def matchSecList (cs : Chars) : Option (List Chars × Chars) :=
  let run := cs.takeWhile (fun c => isWsC c)
  if run.isEmpty then none
  else
    match matchSecTok (cs.drop run.length) with
    | some (tok, rest) =>
      let mr := matchCommaToks rest.length rest
      some (tok :: mr.1, mr.2)
    | none => none

/-- One attempt of `/\bsections?\s+(\d+[A-Z]?(?:\s*,\s*\d+[A-Z]?)*)/gi` at
the current position (the `\b` is checked by the caller).  If the optional
`s` is present but not followed by whitespace, dropping it cannot help
either, since the following character is then that same `s`. -/
def matchP1At (cs : Chars) : Option (List Chars × Chars) :=
  if isPrefixCI "section".data cs then
    let afterSection := cs.drop 7
    let afterS :=
      match afterSection with
      | c :: rest => if c.toLower = 's' then rest else afterSection
      | [] => afterSection
    matchSecList afterS
  else none

/-- One attempt of `/\bu\/s\s+(…comma list…)/gi` at the current position. -/
def matchP2At (cs : Chars) : Option (List Chars × Chars) :=
  if isPrefixCI "u/s".data cs then matchSecList (cs.drop 3) else none

/-- One attempt of `/\bsec\.?\s+(\d+[A-Z]?)/gi` at the current position. -/
def matchP3At (cs : Chars) : Option (List Chars × Chars) :=
  if isPrefixCI "sec".data cs then
    let afterSec := cs.drop 3
    let afterDot :=
      match afterSec with
      | '.' :: rest => rest
      | _ => afterSec
    let run := afterDot.takeWhile (fun c => isWsC c)
    if run.isEmpty then none
    else
      match matchSecTok (afterDot.drop run.length) with
      | some (tok, rest) => some ([tok], rest)
      | none => none
  else none

/-- One attempt of `/\b(\d{3}[A-Z]?)\s+(?:IPC|BNS|CrPC)/gi` at the current
position. -/
def matchP4At (cs : Chars) : Option (List Chars × Chars) :=
  let ds := cs.takeWhile (fun c => isDigitC c)
  if ds.length = 3 then
    let afterDs := cs.drop 3
    let tokRest : Chars × Chars :=
      match afterDs with
      | c :: rest => if isAlphaC c then (ds ++ [c], rest) else (ds, afterDs)
      | [] => (ds, afterDs)
    let run := tokRest.2.takeWhile (fun c => isWsC c)
    if run.isEmpty then none
    else
      let afterWs := tokRest.2.drop run.length
      if isPrefixCI "IPC".data afterWs then some ([tokRest.1], afterWs.drop 3)
      else if isPrefixCI "BNS".data afterWs then some ([tokRest.1], afterWs.drop 3)
      else if isPrefixCI "CrPC".data afterWs then some ([tokRest.1], afterWs.drop 4)
      else none
  else none

/-- The `exec` loop with the `g` flag for one section pattern: scan left to
right, take each match's tokens, continue after the match.  Every matched
token ends in a word character, so `prevWord` is true after a match. -/
def execSections (m : Chars → Option (List Chars × Chars)) :
    ℕ → Bool → Chars → List Chars
  | 0, _, _ => []
  | _, _, [] => []
  | fuel + 1, prevWord, c :: rest =>
    if prevWord then execSections m fuel (isWordC c) rest
    else
      match m (c :: rest) with
      | some (toks, rest') => toks ++ execSections m fuel true rest'
      | none => execSections m fuel (isWordC c) rest

/-- The `sectionPatterns` loop of `preprocessQuery`: all four patterns over
the whole query, tokens in pattern order then match order. -/
def extractSectionTokens (query : Chars) : List Chars :=
  execSections matchP1At query.length false query ++
  execSections matchP2At query.length false query ++
  execSections matchP3At query.length false query ++
  execSections matchP4At query.length false query

/-- The alternation of `conceptPatterns[0]`. -/
def conceptAlts1 : List String :=
  ["bail", "quashing", "compromise", "arrest", "conviction", "acquittal", "sentence"]

/-- The alternation of `conceptPatterns[1]`. -/
def conceptAlts2 : List String :=
  ["prima facie", "mens rea", "actus reus", "mala fide", "bona fide"]

/-- The alternation of `conceptPatterns[2]`. -/
def conceptAlts3 : List String :=
  ["common intention", "criminal conspiracy", "abetment"]

/-- Try the alternatives of one `/\b(alt1|alt2|…)\b/gi` pattern at the
current position, in order; the trailing `\b` needs the next character to be
a non-word character (every alternative ends in a letter). -/
def matchConceptAt (alts : List String) (cs : Chars) : Option (Chars × Chars) :=
  match alts with
  | [] => none
  | a :: rest =>
    if isPrefixCI a.data cs then
      let after := cs.drop a.length
      match after with
      | [] => some (lowerS (cs.take a.length), [])
      | c :: _ => if isWordC c then matchConceptAt rest cs
                  else some (lowerS (cs.take a.length), after)
    else matchConceptAt rest cs

/-- The `exec` loop for one concept pattern; pushes `match[1].toLowerCase()`. -/
def execConcepts (alts : List String) : ℕ → Bool → Chars → List Chars
  | 0, _, _ => []
  | _, _, [] => []
  | fuel + 1, prevWord, c :: rest =>
    if prevWord then execConcepts alts fuel (isWordC c) rest
    else
      match matchConceptAt alts (c :: rest) with
      | some (captured, rest') => captured :: execConcepts alts fuel true rest'
      | none => execConcepts alts fuel (isWordC c) rest

/-- The `conceptPatterns` loop of `preprocessQuery`. -/
def legalConceptsOf (query : Chars) : List Chars :=
  execConcepts conceptAlts1 query.length false query ++
  execConcepts conceptAlts2 query.length false query ++
  execConcepts conceptAlts3 query.length false query

/-! ## Query normalization (index.ts 414-420) -/

/-- `normalized.replace(/\bu\/s\b/gi, 'under Section')` (and the analogous
`r/w` rule), as a scanner over the original string. -/
def replaceSlashAbbr (abbr repl : String) : ℕ → Bool → Chars → Chars
  | 0, _, cs => cs
  | _, _, [] => []
  | fuel + 1, prevWord, c :: rest =>
    if !prevWord && isPrefixCI abbr.data (c :: rest) &&
        (match (c :: rest).drop abbr.length with
         | [] => true
         | c' :: _ => !isWordC c') then
      repl.data ++ replaceSlashAbbr abbr repl fuel true ((c :: rest).drop abbr.length)
    else c :: replaceSlashAbbr abbr repl fuel (isWordC c) rest

/-- `normalized.replace(/\bSec\.?\s+/gi, 'Section ')`: the greedy `\s+`
swallows the whole whitespace run; the match ends in whitespace, so
`prevWord` is false afterwards. -/
def replaceSecDot : ℕ → Bool → Chars → Chars
  | 0, _, cs => cs
  | _, _, [] => []
  | fuel + 1, prevWord, c :: rest =>
    if !prevWord ∧ isPrefixCI "sec".data (c :: rest) then
      let afterSec := (c :: rest).drop 3
      let afterDot :=
        match afterSec with
        | '.' :: r => r
        | _ => afterSec
      let run := afterDot.takeWhile (fun x => isWsC x)
      if run.isEmpty then c :: replaceSecDot fuel (isWordC c) rest
      else "Section ".data ++ replaceSecDot fuel false (afterDot.drop run.length)
    else c :: replaceSecDot fuel (isWordC c) rest

/-- `str.replace(/\s+/g, repl)`: every maximal whitespace run becomes the
replacement string. -/
def replaceWsRuns (repl : Chars) : ℕ → Chars → Chars
  | 0, cs => cs
  | _, [] => []
  | fuel + 1, c :: rest =>
    if isWsC c then
      repl ++ replaceWsRuns repl fuel (rest.dropWhile (fun x => isWsC x))
    else c :: replaceWsRuns repl fuel rest

/-- The normalization chain of `preprocessQuery` (index.ts 414-420):
`u/s` → "under Section", `r/w` → "read with", `Sec.` → "Section ",
whitespace collapse, trim. -/
def normalizeQuery (query : Chars) : Chars :=
  let s1 := replaceSlashAbbr "u/s" "under Section" query.length false query
  let s2 := replaceSlashAbbr "r/w" "read with" s1.length false s1
  let s3 := replaceSecDot s2.length false s2
  let s4 := replaceWsRuns " ".data s3.length s3
  trimJS s4

/-- `Array.prototype.join(sep)`. -/
def joinSep (sep : String) : List String → String
  | [] => ""
  | [x] => x
  | x :: xs => x ++ sep ++ joinSep sep xs

/-! ## `preprocessQuery` (index.ts 357-450) -/

/-- One entry of `validatedSections`. -/
structure ValidatedSection where
  original : String
  validated : String
  isValid : Bool
  suggestions : Option (List String)
deriving DecidableEq

/-- The `ProcessedQuery` record. -/
structure ProcessedQuery where
  originalQuery : String
  normalizedQuery : String
  extractedSections : List String
  validatedSections : List ValidatedSection
  legalConcepts : List String
  searchVariants : List String
deriving DecidableEq

/-- `preprocessQuery` (index.ts 357-450). -/
def preprocessQuery (query : String) : ProcessedQuery :=
  let codeType :=
    if containsSub (lowerS query.data) "bns".data then "BNS"
    else if containsSub (lowerS query.data) "crpc".data then "CrPC"
    else "IPC"
  let toks := extractSectionTokens query.data
  let extractedSections := toks.map (fun t => String.mk (trimJS t))
  let validatedSections := toks.map (fun t =>
    let trimmed := String.mk (trimJS t)
    let validation := validateSection trimmed codeType
    { original := trimmed,
      validated :=
        if validation.isValid then trimmed
        else
          match validation.nearestValid with
          | some (s :: _) => s
          | _ => trimmed,
      isValid := validation.isValid,
      suggestions := validation.nearestValid })
  let legalConcepts := (legalConceptsOf query.data).map String.mk
  let normalized := String.mk (normalizeQuery query.data)
  let withAndd := String.mk (replaceWsRuns " ANDD ".data normalized.data.length normalized.data)
  let sectionVariants :=
    if extractedSections.isEmpty then []
    else
      [joinSep " " (extractedSections.map (fun s => "\"Section " ++ s ++ "\"")),
       joinSep " " (extractedSections.map (fun s => "Section " ++ s ++ " IPC"))] ++
      (match extractedSections, legalConcepts with
       | s0 :: _, c0 :: _ => [s0 ++ " " ++ c0]
       | _, _ => [])
  { originalQuery := query,
    normalizedQuery := normalized,
    extractedSections := extractedSections,
    validatedSections := validatedSections,
    legalConcepts := legalConcepts,
    searchVariants := sectionVariants ++ [normalized, withAndd] }

/-! ## Alternative queries and failure analysis
(`generateAlternativeQueries`, index.ts 508-554;
`analyzeSearchFailure`, index.ts 557-606; the `NO_RESULTS` branch of
`search_legal_precedents`, index.ts 1131-1158) -/

/-- `originalQuery.replace(/"[^"]*"/g, '')`: each quoted span (including its
quotes) is removed; an unmatched opening quote matches nothing. -/
def stripQuotedGo : ℕ → Chars → Chars
  | 0, cs => cs
  | _, [] => []
  | fuel + 1, c :: rest =>
    if c = '"' then
      let inner := rest.takeWhile (fun x => x ≠ '"')
      match rest.drop inner.length with
      | '"' :: rest' => stripQuotedGo fuel rest'
      | _ => c :: stripQuotedGo fuel rest
    else c :: stripQuotedGo fuel rest

/-- Strategy 4 of `generateAlternativeQueries`: strip punctuation to spaces,
split on whitespace, keep words longer than 4 characters outside the
stop-list, take the first three. -/
def mainKeywordsOf (query : String) : List String :=
  let cleaned := query.data.map (fun c => if !(isWordC c || isWsC c) then ' ' else c)
  (((splitWs cleaned).filter (fun w =>
      w.length > 4 &&
        !(["under", "section", "with", "read"].contains (String.mk (lowerS w))))).map
    String.mk).take 3

/-- `generateAlternativeQueries` (index.ts 508-554). -/
def generateAlternativeQueries (originalQuery : String) (processed : ProcessedQuery) :
    List String :=
  let a1 :=
    if processed.extractedSections.isEmpty then []
    else
      [joinSep " " (processed.extractedSections.map (fun s => "Section " ++ s)),
       joinSep " ORR "
         (processed.extractedSections.map (fun s => "\"Section " ++ s ++ "\" IPC"))]
  let a2 :=
    if processed.legalConcepts.isEmpty then []
    else
      [joinSep " " processed.legalConcepts] ++
        (match processed.legalConcepts, processed.extractedSections with
         | c0 :: _, s0 :: _ => [c0 ++ " " ++ s0]
         | _, _ => [])
  let withoutQuotes :=
    String.mk (trimJS (stripQuotedGo originalQuery.data.length originalQuery.data))
  let a3 :=
    if withoutQuotes ≠ originalQuery ∧ withoutQuotes.data.length > 0 then [withoutQuotes]
    else []
  let mk := mainKeywordsOf originalQuery
  let a4 := if mk.isEmpty then [] else [joinSep " " mk]
  let base := a1 ++ a2 ++ a3 ++ a4
  let a5 :=
    if base.isEmpty then
      (if containsSub (lowerS originalQuery.data) "bail".data then
        ["bail application granted", "anticipatory bail guidelines"]
       else []) ++
      (if containsSub (lowerS originalQuery.data) "quash".data then
        ["482 CrPC quashing", "FIR quashing grounds"]
       else [])
    else []
  (dedupFirst (base ++ a5)).take 5

/-- The record `analyzeSearchFailure` returns. -/
structure FailureAnalysis where
  reason : String
  suggestions : List String
  alternativeQueries : List String
deriving DecidableEq

/-- `analyzeSearchFailure` (index.ts 557-606): sequential reassignments of
`reason` modelled as a chain of conditionals, suggestions accumulating. -/
def analyzeSearchFailure (query : String) (processed : ProcessedQuery) :
    FailureAnalysis :=
  let tooSpecific := (splitWs query.data).length > 10
  let r1 := if tooSpecific then "Query may be too specific" else ""
  let s1 :=
    if tooSpecific then ["Try using fewer words or just the key legal terms"] else []
  let uncommon := processed.extractedSections.filter (fun s =>
    match parseIntJS s.data with
    | some n => n > 511 || n < 1
    | none => false)
  let hasUncommon := !processed.extractedSections.isEmpty && !uncommon.isEmpty
  let r2 := if hasUncommon then "Some section numbers appear invalid" else r1
  let s2 := s1 ++
    (if hasUncommon then
      ["Verify the section numbers are correct", "Try searching without section numbers"]
     else [])
  let civilMix := jsIncludes query "civil" && jsIncludes query "IPC"
  let r3 := if civilMix then "Query mixes civil and criminal law terms" else r2
  let s3 := s2 ++
    (if civilMix then ["IPC is for criminal cases - remove \"civil\" from query"] else [])
  let reason := if r3 = "" then "No exact matches found for your query" else r3
  let suggestions := s3 ++
    (if r3 = "" then
      ["Try broadening your search terms", "Remove quotes to allow partial matches",
       "Search for the general legal principle instead of specific facts"]
     else [])
  ⟨reason, suggestions, generateAlternativeQueries query processed⟩

/-- The `NO_RESULTS` branch of `search_legal_precedents` (index.ts
1131-1158): taken when all search variants produced an empty merged
document list. -/
structure NoResultsResponse where
  cases : List FormattedCase
  totalResults : ℕ
  searchStatus : String
  reason : String
  suggestions : List String
  alternativeQueries : List String
  message : String
deriving DecidableEq

/-- Build the `NO_RESULTS` response for a query. -/
def buildNoResults (query : String) : NoResultsResponse :=
  let failureAnalysis := analyzeSearchFailure query (preprocessQuery query)
  ⟨[], 0, "NO_RESULTS", failureAnalysis.reason, failureAnalysis.suggestions,
   failureAnalysis.alternativeQueries,
   "No cases found. Try the alternative queries suggested below."⟩

/-- A non-empty list stays non-empty under `dedupFirst`. -/
theorem dedupFirst_ne_nil {α} [DecidableEq α] (l : List α) (h : l ≠ []) :
    dedupFirst l ≠ [] := by
  cases l with
  | nil => exact absurd rfl h
  | cons a rest => simp [dedupFirst, dedupFirstAux]

/-- `take n` of a non-empty list is non-empty for positive `n`. -/
theorem take_pos_ne_nil {α} (l : List α) (n : ℕ) (h : l ≠ []) (hn : 0 < n) :
    l.take n ≠ [] := by
  cases l with
  | nil => exact absurd rfl h
  | cons a rest =>
    cases n with
    | zero => omega
    | succ m => simp

/-- `isEmpty = false` for non-empty lists. -/
theorem isEmpty_false_of_ne_nil {α} (l : List α) (h : l ≠ []) : l.isEmpty = false := by
  cases l with
  | nil => exact absurd rfl h
  | cons a rest => rfl

/-- `generateAlternativeQueries` is non-empty whenever the processed query
yields extracted sections, legal concepts, or main keywords. -/
theorem generateAlternativeQueries_ne_nil (q : String) (p : ProcessedQuery)
    (h : p.extractedSections ≠ [] ∨ p.legalConcepts ≠ [] ∨ mainKeywordsOf q ≠ []) :
    generateAlternativeQueries q p ≠ [] := by
  unfold generateAlternativeQueries
  apply take_pos_ne_nil _ 5 _ (by omega)
  apply dedupFirst_ne_nil
  rcases h with h | h | h
  · rw [isEmpty_false_of_ne_nil _ h]
    simp
  · rw [isEmpty_false_of_ne_nil _ h]
    intro hcontra
    simp at hcontra
  · rw [isEmpty_false_of_ne_nil _ h]
    intro hcontra
    simp at hcontra

/-- **C8 counterexample.**  For the query "cat" every extraction strategy
comes up empty, so the `NO_RESULTS` response carries a non-empty reason but
an *empty* `alternativeQueries` list — the claim's "at least one alternative
query" fails. -/
theorem no_results_counterexample :
    (buildNoResults "cat").searchStatus = "NO_RESULTS" ∧
    (buildNoResults "cat").reason = "No exact matches found for your query" ∧
    (buildNoResults "cat").alternativeQueries = [] := by
  refine ⟨rfl, by decide, by decide⟩

/-- **C8 as amended.**  Whenever all search variants return empty, the tool
returns a `NO_RESULTS` response whose failure reason is always non-empty;
the alternative-query list can be empty (for queries yielding no sections,
no recognized concepts and no keyword longer than four characters, such as
"cat"), but is non-empty whenever the query yields at least one extracted
section, one legal concept, or one main keyword. -/
theorem no_results_amended (query : String) :
    (buildNoResults query).searchStatus = "NO_RESULTS" ∧
    (buildNoResults query).cases = [] ∧
    (buildNoResults query).reason ≠ "" ∧
    (((preprocessQuery query).extractedSections ≠ [] ∨
        (preprocessQuery query).legalConcepts ≠ [] ∨
        mainKeywordsOf query ≠ []) →
      (buildNoResults query).alternativeQueries ≠ []) := by
  refine ⟨rfl, rfl, ?_, ?_⟩
  · show (analyzeSearchFailure query (preprocessQuery query)).reason ≠ ""
    unfold analyzeSearchFailure
    dsimp only
    split_ifs <;> simp_all <;> decide
  · intro h
    show (analyzeSearchFailure query (preprocessQuery query)).alternativeQueries ≠ []
    unfold analyzeSearchFailure
    exact generateAlternativeQueries_ne_nil query (preprocessQuery query) h

/-- Witness for the amended C8: the query "Section 302 murder" yields
sections and keywords, so alternatives are guaranteed non-empty. -/
theorem no_results_amended_witness :
    (buildNoResults "Section 302 murder").reason ≠ "" ∧
    (buildNoResults "Section 302 murder").alternativeQueries ≠ [] := by
  refine ⟨(no_results_amended "Section 302 murder").2.2.1, ?_⟩
  exact (no_results_amended "Section 302 murder").2.2.2 (Or.inl (by decide))

/-- **C9.**  Preprocessing "Section 823 IPC bail" extracts section 823 (once
from the `sections?` pattern and once from the `NNN IPC` pattern), flags it
invalid for the IPC range 1–511, and suggests `323` first (from the
known-typo table), together with `423` and the strip-first-digit repair
`23`. -/
theorem section_typo_suggestion :
    (preprocessQuery "Section 823 IPC bail").extractedSections = ["823", "823"] ∧
    validateSection "823" "IPC" =
      ⟨false, some "Section 823 appears invalid for IPC", some ["323", "423", "23"]⟩ ∧
    (preprocessQuery "Section 823 IPC bail").validatedSections =
      [⟨"823", "323", false, some ["323", "423", "23"]⟩,
       ⟨"823", "323", false, some ["323", "423", "23"]⟩] := by
  refine ⟨by decide, by decide, by decide⟩

/-! ## Paragraph-number extraction (`extractRealParagraphNumber`, index.ts
733-765)

Each strategy's regex is embedded as a hand-coded scanner; where a greedy
element is followed by a requirement its maximal take cannot satisfy in any
shorter form (e.g. `\s+` followed by a literal letter), the greedy take is
forced, so no general backtracking is needed; the one genuinely greedy part —
`[^>]*` in strategies 2 and 3 — is handled by taking the *last* qualifying
split point within the tag window, as a backtracking engine would. -/

/-- Digits followed by a closing double quote. -/
def digitsQuote (cs : Chars) : Option Chars :=
  let ds := cs.takeWhile (fun c => isDigitC c)
  if ds.isEmpty then none
  else
    match cs.drop ds.length with
    | '"' :: _ => some ds
    | _ => none

/-- Strategy 1: `/data-structure="[^"]*"\s+id="p_(\d+)"/` at the current
position (case-sensitive). -/
def matchS1At (cs : Chars) : Option Chars :=
  if isPrefixS "data-structure=\"".data cs then
    let afterOpen := cs.drop "data-structure=\"".length
    let inner := afterOpen.takeWhile (fun c => c ≠ '"')
    match afterOpen.drop inner.length with
    | '"' :: afterQuote =>
      let run := afterQuote.takeWhile (fun c => isWsC c)
      if run.isEmpty then none
      else
        let afterWs := afterQuote.drop run.length
        if isPrefixS "id=\"p_".data afterWs then
          digitsQuote (afterWs.drop "id=\"p_".length)
        else none
    | _ => none
  else none

/-- The `\sid="(?:p_|para_?)(\d+)"` tail of strategy 2, tried at one split
point; the `p_` alternative is tried before `para_?`, as in the regex. -/
def tailS2At (cs : Chars) : Option Chars :=
  match cs with
  | c :: rest =>
    if isWsC c && isPrefixCI "id=\"".data rest then
      let afterId := rest.drop 4
      let alt1 :=
        if isPrefixCI "p_".data afterId then digitsQuote (afterId.drop 2) else none
      match alt1 with
      | some ds => some ds
      | none =>
        if isPrefixCI "para".data afterId then
          let afterPara := afterId.drop 4
          let afterUnd :=
            match afterPara with
            | '_' :: r => r
            | _ => afterPara
          digitsQuote afterUnd
        else none
    else none
  | [] => none

/-- The `\sid="blockquote_(\d+)"` tail of strategy 3. -/
def tailS3At (cs : Chars) : Option Chars :=
  match cs with
  | c :: rest =>
    if isWsC c && isPrefixCI "id=\"blockquote_".data rest then
      digitsQuote (rest.drop "id=\"blockquote_".length)
    else none
  | [] => none

/-- Scan the `[^>]*` window for the last split point at which the given
tail matches (the greedy choice of a backtracking engine). -/
def scanTagWindow (tail : Chars → Option Chars) : ℕ → Chars → Option Chars → Option Chars
  | 0, _, acc => acc
  | _, [], acc => acc
  | fuel + 1, c :: rest, acc =>
    if c = '>' then acc
    else
      scanTagWindow tail fuel rest
        (match tail (c :: rest) with
         | some ds => some ds
         | none => acc)

/-- Strategy 2: `/(?:<p|<div)[^>]*\sid="(?:p_|para_?)(\d+)"/i` at the
current position. -/
def matchS2At (cs : Chars) : Option Chars :=
  if isPrefixCI "<p".data cs then
    scanTagWindow tailS2At cs.length (cs.drop 2) none
  else if isPrefixCI "<div".data cs then
    scanTagWindow tailS2At cs.length (cs.drop 4) none
  else none

/-- Strategy 3: `/<blockquote[^>]*\sid="blockquote_(\d+)"/i` at the current
position. -/
def matchS3At (cs : Chars) : Option Chars :=
  if isPrefixCI "<blockquote".data cs then
    scanTagWindow tailS3At cs.length (cs.drop "<blockquote".length) none
  else none

/-- `(\d+)\.\s*(?=[A-Z])` (the part of strategy 4 after `(?:^|\s)`). -/
def digitsDotAt (cs : Chars) : Option Chars :=
  let ds := cs.takeWhile (fun c => isDigitC c)
  if ds.isEmpty then none
  else
    match cs.drop ds.length with
    | '.' :: afterDot =>
      let run := afterDot.takeWhile (fun c => isWsC c)
      match afterDot.drop run.length with
      | c :: _ => if isUpperC c then some ds else none
      | [] => none
    | _ => none

/-- Strategy 4: `/(?:^|\s)(\d+)\.\s*(?=[A-Z])/` scanned left to right;
at offset 0 the `^` alternative is tried before the `\s` one. -/
def scanS4 : ℕ → Bool → Chars → Option Chars
  | 0, _, _ => none
  | _, _, [] => none
  | fuel + 1, atStart, c :: rest =>
    let here :=
      if atStart then
        match digitsDotAt (c :: rest) with
        | some ds => some ds
        | none => if isWsC c then digitsDotAt rest else none
      else if isWsC c then digitsDotAt rest
      else none
    match here with
    | some ds => some ds
    | none => scanS4 fuel false rest

/-- Strategy 5: `/\[(\d+)\]|\¶\s*(\d+)|para(?:graph)?\s+(\d+)/i` at the
current position, alternatives in order. -/
def matchS5At (cs : Chars) : Option Chars :=
  let alt1 :=
    match cs with
    | '[' :: rest =>
      let ds := rest.takeWhile (fun c => isDigitC c)
      if ds.isEmpty then none
      else
        match rest.drop ds.length with
        | ']' :: _ => some ds
        | _ => none
    | _ => none
  match alt1 with
  | some ds => some ds
  | none =>
    let alt2 :=
      match cs with
      | '¶' :: rest =>
        let run := rest.takeWhile (fun c => isWsC c)
        let ds := (rest.drop run.length).takeWhile (fun c => isDigitC c)
        if ds.isEmpty then none else some ds
      | _ => none
    match alt2 with
    | some ds => some ds
    | none =>
      if isPrefixCI "para".data cs then
        let afterP := cs.drop 4
        let afterG := if isPrefixCI "graph".data afterP then afterP.drop 5 else afterP
        let run := afterG.takeWhile (fun c => isWsC c)
        if run.isEmpty then none
        else
          let ds := (afterG.drop run.length).takeWhile (fun c => isDigitC c)
          if ds.isEmpty then none else some ds
      else none

/-- Leftmost-match scan for a capture matcher. -/
def scanFirst (m : Chars → Option Chars) : ℕ → Chars → Option Chars
  | 0, _ => none
  | _, [] => none
  | fuel + 1, c :: rest =>
    match m (c :: rest) with
    | some ds => some ds
    | none => scanFirst m fuel rest

/-- `extractRealParagraphNumber` (index.ts 733-765): the five strategies in
order; the result is the captured digit string. -/
def extractRealParagraphNumber (html : Chars) : Option Chars :=
  match scanFirst matchS1At html.length html with
  | some ds => some ds
  | none =>
    match scanFirst matchS2At html.length html with
    | some ds => some ds
    | none =>
      match scanFirst matchS3At html.length html with
      | some ds => some ds
      | none =>
        match scanS4 html.length true html with
        | some ds => some ds
        | none => scanFirst matchS5At html.length html

/-! ## HTML stripping (`stripHtml`, index.ts 768-810) -/

/-- Replace every match of a length-matcher by a fixed string. -/
def replaceMatcher (m : Chars → Option ℕ) (repl : Chars) : ℕ → Chars → Chars
  | 0, cs => cs
  | _, [] => []
  | fuel + 1, c :: rest =>
    match m (c :: rest) with
    | some len => repl ++ replaceMatcher m repl fuel ((c :: rest).drop (max len 1))
    | none => c :: replaceMatcher m repl fuel rest

/-- Case-insensitive literal `replace(/…/gi, repl)`. -/
def replaceAllCI (needle : String) (repl : Chars) : ℕ → Chars → Chars
  | 0, cs => cs
  | _, [] => []
  | fuel + 1, c :: rest =>
    if isPrefixCI needle.data (c :: rest) then
      repl ++ replaceAllCI needle repl fuel ((c :: rest).drop needle.length)
    else c :: replaceAllCI needle repl fuel rest

/-- Case-sensitive literal `replace(new RegExp(entity, 'g'), char)`. -/
def replaceAllCS (needle : String) (repl : Chars) : ℕ → Chars → Chars
  | 0, cs => cs
  | _, [] => []
  | fuel + 1, c :: rest =>
    if isPrefixS needle.data (c :: rest) then
      repl ++ replaceAllCS needle repl fuel ((c :: rest).drop needle.length)
    else c :: replaceAllCS needle repl fuel rest

/-- `/<br\s*\/?>/gi` at the current position: match length. -/
def brTagAt (cs : Chars) : Option ℕ :=
  match cs with
  | '<' :: rest =>
    if isPrefixCI "br".data rest then
      let afterBr := rest.drop 2
      let run := afterBr.takeWhile (fun c => isWsC c)
      let afterRun := afterBr.drop run.length
      match afterRun with
      | '/' :: '>' :: _ => some (1 + 2 + run.length + 2)
      | '>' :: _ => some (1 + 2 + run.length + 1)
      | _ => none
    else none
  | _ => none

/-- `/<[^>]*>/g` at the current position: match length. -/
def anyTagAt (cs : Chars) : Option ℕ :=
  match cs with
  | '<' :: rest =>
    let inner := rest.takeWhile (fun c => c ≠ '>')
    match rest.drop inner.length with
    | '>' :: _ => some (1 + inner.length + 1)
    | _ => none
  | _ => none

/-- `/\n{3,}/g` at the current position. -/
def nlRunAt (cs : Chars) : Option ℕ :=
  let run := cs.takeWhile (fun c => c = '\n')
  if run.length ≥ 3 then some run.length else none

/-- `/[ \t]+/g` at the current position. -/
def spTabRunAt (cs : Chars) : Option ℕ :=
  let run := cs.takeWhile (fun c => c = ' ' || c = '\t')
  if run.length ≥ 1 then some run.length else none

/-- The HTML entity table of `stripHtml`, in source order (the typographic
replacements are written via `Char.ofNat`: 39 is the apostrophe). -/
def entitiesTable : List (String × Chars) :=
  [("&nbsp;", [' ']), ("&amp;", ['&']), ("&lt;", ['<']), ("&gt;", ['>']),
   ("&quot;", ['"']), ("&#39;", [Char.ofNat 39]), ("&rsquo;", [Char.ofNat 39]),
   ("&lsquo;", [Char.ofNat 39]), ("&rdquo;", ['"']), ("&ldquo;", ['"']),
   ("&ndash;", ['-']), ("&mdash;", ['—'])]

/-- `stripHtml` (index.ts 768-810): break tags to newlines, tag removal,
entity decoding, blank-line and horizontal-whitespace collapsing, optional
paragraph-number prefix, trim. -/
def stripHtml (html : Chars) (preserveStructure : Bool) : Chars :=
  let paraNum := extractRealParagraphNumber html
  let t1 := replaceMatcher brTagAt "\n".data html.length html
  let t2 := replaceAllCI "</p>" "\n\n".data t1.length t1
  let t3 := replaceAllCI "</div>" "\n".data t2.length t2
  let t4 := replaceMatcher anyTagAt [] t3.length t3
  let t5 := entitiesTable.foldl (fun acc e => replaceAllCS e.1 e.2 acc.length acc) t4
  let t6 := replaceMatcher nlRunAt "\n\n".data t5.length t5
  let t7 := replaceMatcher spTabRunAt " ".data t6.length t6
  let t8 :=
    match preserveStructure, paraNum with
    | true, some pn => "[Para ".data ++ pn ++ "] ".data ++ t7
    | _, _ => t7
  trimJS t8

/-! ## Sentence-boundary truncation (`findSentenceBoundary`, index.ts
675-730; the truncation step of `extractCompleteParagraphs`, index.ts
813-852)

Positions are `Int` so the `-1` sentinel and the comparisons `position <
startPos + maxLength`, `position > bestPosition`, `bestPosition > 0` can be
taken verbatim from the source. -/

/-- `/\.\s+[A-Z]/g` at the current position: match length. -/
def dotWsUpperM (cs : Chars) : Option ℕ :=
  match cs with
  | '.' :: rest =>
    let run := rest.takeWhile (fun c => isWsC c)
    if run.isEmpty then none
    else
      match rest.drop run.length with
      | c :: _ => if isUpperC c then some (1 + run.length + 1) else none
      | [] => none
  | _ => none

/-- `/\.\"\s+/g`. -/
def dotQuoteWsM (cs : Chars) : Option ℕ :=
  match cs with
  | '.' :: '"' :: rest =>
    let run := rest.takeWhile (fun c => isWsC c)
    if run.isEmpty then none else some (2 + run.length)
  | _ => none

/-- `/\.\)\s+/g`. -/
def dotParenWsM (cs : Chars) : Option ℕ :=
  match cs with
  | '.' :: ')' :: rest =>
    let run := rest.takeWhile (fun c => isWsC c)
    if run.isEmpty then none else some (2 + run.length)
  | _ => none

/-- `/\?\s+/g`. -/
def questionWsM (cs : Chars) : Option ℕ :=
  match cs with
  | '?' :: rest =>
    let run := rest.takeWhile (fun c => isWsC c)
    if run.isEmpty then none else some (1 + run.length)
  | _ => none

/-- `/!\s+/g`. -/
def bangWsM (cs : Chars) : Option ℕ :=
  match cs with
  | '!' :: rest =>
    let run := rest.takeWhile (fun c => isWsC c)
    if run.isEmpty then none else some (1 + run.length)
  | _ => none

/-- `/\.\s*$/g` (no `m` flag: `$` is end of input). -/
def dotEndM (cs : Chars) : Option ℕ :=
  match cs with
  | '.' :: rest => if rest.all (fun c => isWsC c) then some (1 + rest.length) else none
  | _ => none

/-- `/;\s+/g`. -/
def semiWsM (cs : Chars) : Option ℕ :=
  match cs with
  | ';' :: rest =>
    let run := rest.takeWhile (fun c => isWsC c)
    if run.isEmpty then none else some (1 + run.length)
  | _ => none

/-- `/:\s+/g`. -/
def colonWsM (cs : Chars) : Option ℕ :=
  match cs with
  | ':' :: rest =>
    let run := rest.takeWhile (fun c => isWsC c)
    if run.isEmpty then none else some (1 + run.length)
  | _ => none

/-- `/\n\n/g`. -/
def nlNlM (cs : Chars) : Option ℕ :=
  match cs with
  | '\n' :: '\n' :: _ => some 2
  | _ => none

/-- `/\.\s*/g`. -/
def dotWsStarM (cs : Chars) : Option ℕ :=
  match cs with
  | '.' :: rest => some (1 + (rest.takeWhile (fun c => isWsC c)).length)
  | _ => none

/-- The `sentenceEndings` pattern list of `findSentenceBoundary`. -/
def sentenceMatchers : List (Chars → Option ℕ) :=
  [dotWsUpperM, dotQuoteWsM, dotParenWsM, questionWsM, bangWsM, dotEndM]

/-- The `fallbackPatterns` list. -/
def fallbackMatchers : List (Chars → Option ℕ) :=
  [semiWsM, colonWsM, nlNlM, dotWsStarM]

/-- The non-overlapping `exec` enumeration of match indices with the `g`
flag: find successive matches, resuming after each match's end. -/
def execEnum (m : Chars → Option ℕ) : ℕ → ℕ → Chars → List ℕ
  | 0, _, _ => []
  | _, _, [] => []
  | fuel + 1, i, c :: rest =>
    match m (c :: rest) with
    | some len =>
      i :: execEnum m fuel (i + max len 1) ((c :: rest).drop (max len 1))
    | none => execEnum m fuel (i + 1) rest

/-- `startPos + minLength + match.index + 1`: the candidate boundary of one
match. -/
def posOf (startPos minLength idx : ℕ) : Int := ((startPos + minLength + idx + 1 : ℕ) : Int)

/-- One update of `bestPosition`:
`if (position < startPos + maxLength && position > bestPosition)`. -/
def boundaryStep (startPos minLength : ℕ) (cap : Int) (b : Int) (idx : ℕ) : Int :=
  if posOf startPos minLength idx < cap ∧ posOf startPos minLength idx > b then
    posOf startPos minLength idx
  else b

/-- The first loop of `findSentenceBoundary`: over the six sentence-ending
patterns, keep the largest candidate position below `cap`; `-1` when none. -/
def sentencePass (searchText : Chars) (startPos minLength : ℕ) (cap : Int) : Int :=
  sentenceMatchers.foldl (fun best m =>
    (execEnum m searchText.length 0 searchText).foldl
      (boundaryStep startPos minLength cap) best) (-1)

/-- The fallback loop: for each fallback pattern in order, accept the first
candidate position below `cap` that improves on the running best. -/
def fallbackPass (searchText : Chars) (startPos minLength : ℕ) (cap : Int)
    (best0 : Int) : Int :=
  fallbackMatchers.foldl (fun best m =>
    match (execEnum m searchText.length 0 searchText).find? (fun idx =>
        decide (posOf startPos minLength idx < cap) &&
        decide (posOf startPos minLength idx > best)) with
    | some idx => posOf startPos minLength idx
    | none => best) best0

/-- `findSentenceBoundary` (index.ts 675-730).  `minLength` models
`Math.min(1000, maxLength * 0.7)` as `min 1000 (7 * maxLength / 10)` — the
float product is used only through the integer truncation of `substring`,
and for `maxLength = 1500` both give 1000. -/
def findSentenceBoundary (text : Chars) (startPos maxLength : ℕ) : ℕ :=
  if text.length ≤ maxLength then text.length
  else
    let minLength := min 1000 (7 * maxLength / 10)
    let searchText := (text.take (startPos + maxLength + 200)).drop (startPos + minLength)
    let cap : Int := ((startPos + maxLength : ℕ) : Int)
    let b1 := sentencePass searchText startPos minLength cap
    let best := if b1 = -1 then fallbackPass searchText startPos minLength cap b1 else b1
    if best > 0 then best.toNat else startPos + maxLength

/-- The per-fragment truncation step of `extractCompleteParagraphs`
(index.ts 833-848). -/
def truncateParagraph (cleanText : Chars) (maxLength : ℕ) : Chars × Bool :=
  if cleanText.length ≤ maxLength then (cleanText, true)
  else
    let boundary := findSentenceBoundary cleanText 0 maxLength
    (cleanText.take boundary, boundary ≥ cleanText.length)

/-- One output paragraph of `extractCompleteParagraphs`. -/
structure ExtractedPara where
  text : String
  paragraphNumber : String
  isComplete : Bool
deriving DecidableEq

/-- The loop body of `extractCompleteParagraphs` for one fragment at one
index. -/
def paraOf (maxLength : ℕ) (idx : ℕ) (fragment : String) : ExtractedPara :=
  let paraNum :=
    match extractRealParagraphNumber fragment.data with
    | some ds => String.mk ds
    | none => String.mk (natToChars (idx + 1))
  let cleanText := stripHtml fragment.data false
  let tp := truncateParagraph cleanText maxLength
  { text := String.mk tp.1, paragraphNumber := paraNum, isComplete := tp.2 }

/-- `extractCompleteParagraphs` (index.ts 813-852).  As in the source, the
`includeParaNumbers` parameter is accepted but never read. -/
def extractCompleteParagraphs (fragments : List String) (maxLength : ℕ)
    (includeParaNumbers : Bool) : List ExtractedPara :=
  fragments.enum.map (fun ie => paraOf maxLength ie.1 ie.2)

/-! ### Properties of the boundary search -/

/-- `boundaryStep` never decreases the running best. -/
theorem boundaryStep_le (sp ml : ℕ) (cap b : Int) (idx : ℕ) :
    b ≤ boundaryStep sp ml cap b idx := by
  unfold boundaryStep
  split
  · next h => exact le_of_lt h.2
  · exact le_refl b

/-- A fold of `boundaryStep` never decreases the running best. -/
theorem foldl_boundaryStep_le (sp ml : ℕ) (cap : Int) (l : List ℕ) (b : Int) :
    b ≤ l.foldl (boundaryStep sp ml cap) b := by
  induction l generalizing b with
  | nil => exact le_refl b
  | cons x xs ih =>
    exact le_trans (boundaryStep_le sp ml cap b x) (ih (boundaryStep sp ml cap b x))

/-- A fold of `boundaryStep` either keeps its seed or returns a candidate
position from the list that is below the cap. -/
theorem foldl_boundaryStep_cases (sp ml : ℕ) (cap : Int) (l : List ℕ) (b : Int) :
    l.foldl (boundaryStep sp ml cap) b = b ∨
    ∃ idx ∈ l, l.foldl (boundaryStep sp ml cap) b = posOf sp ml idx ∧
      posOf sp ml idx < cap := by
  induction l generalizing b with
  | nil => exact Or.inl rfl
  | cons x xs ih =>
    simp only [List.foldl_cons]
    rcases ih (boundaryStep sp ml cap b x) with h | ⟨idx, hm, he, hlt⟩
    · rw [h]
      unfold boundaryStep
      split
      · next hx => exact Or.inr ⟨x, by simp, rfl, hx.1⟩
      · exact Or.inl rfl
    · exact Or.inr ⟨idx, by simp [hm], he, hlt⟩

/-- Candidate positions are strictly positive. -/
theorem posOf_pos (sp ml idx : ℕ) : 0 < posOf sp ml idx := by
  unfold posOf
  positivity

/-- If the list holds a candidate below the cap, the fold ends positive. -/
theorem foldl_boundaryStep_pos (sp ml : ℕ) (cap : Int) (l : List ℕ) :
    ∀ (b : Int) (idx : ℕ), idx ∈ l → posOf sp ml idx < cap →
      0 < l.foldl (boundaryStep sp ml cap) b := by
  induction l with
  | nil => intro b idx h; cases h
  | cons x xs ih =>
    intro b idx hmem hlt
    simp only [List.foldl_cons]
    rcases List.mem_cons.mp hmem with rfl | hxs
    · have hstep : 0 < boundaryStep sp ml cap b idx := by
        unfold boundaryStep
        split
        · exact posOf_pos sp ml idx
        · next hnot =>
          have : ¬ posOf sp ml idx > b := fun hgt => hnot ⟨hlt, hgt⟩
          exact lt_of_lt_of_le (posOf_pos sp ml idx) (not_lt.mp this)
      exact lt_of_lt_of_le hstep (foldl_boundaryStep_le sp ml cap xs _)
    · exact ih (boundaryStep sp ml cap b x) idx hxs hlt

/-- Generic form of `sentencePass` over an arbitrary matcher list: the fold
either keeps its seed or returns some pattern's candidate below the cap. -/
theorem foldlPass_cases (ms : List (Chars → Option ℕ)) (st : Chars) (sp ml : ℕ)
    (cap : Int) (b : Int) :
    ms.foldl (fun best m =>
        (execEnum m st.length 0 st).foldl (boundaryStep sp ml cap) best) b = b ∨
    ∃ m ∈ ms, ∃ idx ∈ execEnum m st.length 0 st,
      ms.foldl (fun best m =>
          (execEnum m st.length 0 st).foldl (boundaryStep sp ml cap) best) b =
        posOf sp ml idx ∧ posOf sp ml idx < cap := by
  induction ms generalizing b with
  | nil => exact Or.inl rfl
  | cons m ms ih =>
    simp only [List.foldl_cons]
    rcases ih ((execEnum m st.length 0 st).foldl (boundaryStep sp ml cap) b) with h | h
    · rw [h]
      rcases foldl_boundaryStep_cases sp ml cap (execEnum m st.length 0 st) b with
        h2 | ⟨idx, hm, he, hlt⟩
      · exact Or.inl h2
      · exact Or.inr ⟨m, by simp, idx, hm, he, hlt⟩
    · obtain ⟨m', hm', idx, hmem, he, hlt⟩ := h
      exact Or.inr ⟨m', by simp [hm'], idx, hmem, he, hlt⟩

/-- The pass fold over matchers never decreases the running best. -/
theorem foldlPass_le (ms : List (Chars → Option ℕ)) (st : Chars) (sp ml : ℕ)
    (cap : Int) :
    ∀ (b : Int), b ≤ ms.foldl (fun best m =>
        (execEnum m st.length 0 st).foldl (boundaryStep sp ml cap) best) b := by
  induction ms with
  | nil => intro b; exact le_refl b
  | cons m0 ms0 ih =>
    intro b
    simp only [List.foldl_cons]
    exact le_trans (foldl_boundaryStep_le sp ml cap _ b) (ih _)

/-- Generic positivity: if some listed pattern has a candidate below the
cap, the fold ends positive. -/
theorem foldlPass_pos (ms : List (Chars → Option ℕ)) (st : Chars) (sp ml : ℕ)
    (cap : Int) :
    ∀ (b : Int),
      (∃ m ∈ ms, ∃ idx ∈ execEnum m st.length 0 st, posOf sp ml idx < cap) →
      0 < ms.foldl (fun best m =>
        (execEnum m st.length 0 st).foldl (boundaryStep sp ml cap) best) b := by
  induction ms with
  | nil =>
    intro b h
    obtain ⟨m, hm, _⟩ := h
    cases hm
  | cons m0 ms0 ih =>
    intro b h
    simp only [List.foldl_cons]
    obtain ⟨m, hm, idx, hmem, hlt⟩ := h
    rcases List.mem_cons.mp hm with rfl | hms
    · exact lt_of_lt_of_le (foldl_boundaryStep_pos sp ml cap _ b idx hmem hlt)
        (foldlPass_le ms0 st sp ml cap _)
    · exact ih _ ⟨m, hms, idx, hmem, hlt⟩

/-- `sentencePass` either fails with `-1` or returns a candidate position of
one of the six sentence patterns, below the cap. -/
theorem sentencePass_cases (st : Chars) (sp ml : ℕ) (cap : Int) :
    sentencePass st sp ml cap = -1 ∨
    ∃ m ∈ sentenceMatchers, ∃ idx ∈ execEnum m st.length 0 st,
      sentencePass st sp ml cap = posOf sp ml idx ∧ posOf sp ml idx < cap :=
  foldlPass_cases sentenceMatchers st sp ml cap (-1)

/-- If some sentence pattern has a candidate below the cap, `sentencePass`
is positive. -/
theorem sentencePass_pos (st : Chars) (sp ml : ℕ) (cap : Int)
    (h : ∃ m ∈ sentenceMatchers, ∃ idx ∈ execEnum m st.length 0 st,
      posOf sp ml idx < cap) :
    0 < sentencePass st sp ml cap :=
  foldlPass_pos sentenceMatchers st sp ml cap (-1) h

/-- Generic form of `fallbackPass` over an arbitrary matcher list. -/
theorem foldlFallback_cases (ms : List (Chars → Option ℕ)) (st : Chars)
    (sp ml : ℕ) (cap : Int) (b0 : Int) :
    ms.foldl (fun best m =>
      match (execEnum m st.length 0 st).find? (fun idx =>
          decide (posOf sp ml idx < cap) && decide (posOf sp ml idx > best)) with
      | some idx => posOf sp ml idx
      | none => best) b0 = b0 ∨
    ∃ m ∈ ms, ∃ idx ∈ execEnum m st.length 0 st,
      ms.foldl (fun best m =>
        match (execEnum m st.length 0 st).find? (fun idx =>
            decide (posOf sp ml idx < cap) && decide (posOf sp ml idx > best)) with
        | some idx => posOf sp ml idx
        | none => best) b0 = posOf sp ml idx ∧ posOf sp ml idx < cap := by
  induction ms generalizing b0 with
  | nil => exact Or.inl rfl
  | cons m ms ih =>
    simp only [List.foldl_cons]
    rcases hfind : (execEnum m st.length 0 st).find? (fun idx =>
        decide (posOf sp ml idx < cap) && decide (posOf sp ml idx > b0)) with _ | idx
    · rcases ih b0 with h | ⟨m', hm', idx', hmem', he', hlt'⟩
      · exact Or.inl h
      · exact Or.inr ⟨m', by simp [hm'], idx', hmem', he', hlt'⟩
    · have hmem := List.mem_of_find?_eq_some hfind
      have hp := List.find?_some hfind
      simp only [Bool.and_eq_true, decide_eq_true_eq] at hp
      rcases ih (posOf sp ml idx) with h | ⟨m', hm', idx', hmem', he', hlt'⟩
      · exact Or.inr ⟨m, by simp, idx, hmem, h, hp.1⟩
      · exact Or.inr ⟨m', by simp [hm'], idx', hmem', he', hlt'⟩

/-- `fallbackPass` either keeps its seed or returns a candidate position of
one of the four fallback patterns, below the cap. -/
theorem fallbackPass_cases (st : Chars) (sp ml : ℕ) (cap b0 : Int) :
    fallbackPass st sp ml cap b0 = b0 ∨
    ∃ m ∈ fallbackMatchers, ∃ idx ∈ execEnum m st.length 0 st,
      fallbackPass st sp ml cap b0 = posOf sp ml idx ∧ posOf sp ml idx < cap :=
  foldlFallback_cases fallbackMatchers st sp ml cap b0

/-- Members of an `execEnum` enumeration are match positions. -/
theorem execEnum_spec (m : Chars → Option ℕ) :
    ∀ (fuel i : ℕ) (cs : Chars) (idx : ℕ), idx ∈ execEnum m fuel i cs →
      i ≤ idx ∧ ∃ len, m (cs.drop (idx - i)) = some len := by
  intro fuel
  induction fuel with
  | zero =>
    intro i cs idx h
    simp only [execEnum] at h
    cases h
  | succ fuel ih =>
    intro i cs idx h
    cases cs with
    | nil =>
      simp only [execEnum] at h
      cases h
    | cons c rest =>
      unfold execEnum at h
      rcases hm : m (c :: rest) with _ | len <;> rw [hm] at h
      · obtain ⟨hle, len', hrec⟩ := ih (i + 1) rest idx h
        refine ⟨by omega, len', ?_⟩
        have : (c :: rest).drop (idx - i) = rest.drop (idx - (i + 1)) := by
          have : idx - i = (idx - (i + 1)) + 1 := by omega
          rw [this]
          rfl
        rw [this]
        exact hrec
      · rcases List.mem_cons.mp h with rfl | hrec
        · exact ⟨le_refl idx, len, by simpa using hm⟩
        · obtain ⟨hle, len', hrec'⟩ := ih _ _ idx hrec
          refine ⟨by omega, len', ?_⟩
          rw [List.drop_drop] at hrec'
          have : max len 1 + (idx - (i + max len 1)) = idx - i := by omega
          rw [this] at hrec'
          exact hrec'

/-- The leftmost match position is enumerated by `execEnum`, provided the
fuel covers it. -/
theorem execEnum_complete (m : Chars → Option ℕ) :
    ∀ (j : ℕ) (fuel i : ℕ) (cs : Chars) (len : ℕ),
      m (cs.drop j) = some len → (∀ k, k < j → m (cs.drop k) = none) →
      j < fuel → j < cs.length → (i + j) ∈ execEnum m fuel i cs := by
  intro j
  induction j with
  | zero =>
    intro fuel i cs len hm _ hfuel hlen
    cases fuel with
    | zero => omega
    | succ fuel =>
      cases cs with
      | nil => simp at hlen
      | cons c rest =>
        unfold execEnum
        simp only [List.drop_zero] at hm
        rw [hm]
        simp
  | succ j ih =>
    intro fuel i cs len hm hnone hfuel hlen
    cases fuel with
    | zero => omega
    | succ fuel =>
      cases cs with
      | nil => simp at hlen
      | cons c rest =>
        unfold execEnum
        have h0 : m (c :: rest) = none := by simpa using hnone 0 (by omega)
        rw [h0]
        have := ih fuel (i + 1) rest len (by simpa using hm)
          (fun k hk => by simpa using hnone (k + 1) (by omega))
          (by omega) (by simpa using hlen)
        have harith : i + 1 + j = i + (j + 1) := by omega
        rwa [harith] at this

/-- Every sentence-ending match starts with '.', '?' or '!'. -/
theorem sentenceMatchers_start (m : Chars → Option ℕ) (hm : m ∈ sentenceMatchers)
    (cs : Chars) (len : ℕ) (h : m cs = some len) :
    ∃ c rest, cs = c :: rest ∧ (c = '.' ∨ c = '?' ∨ c = '!') := by
  simp only [sentenceMatchers, List.mem_cons, List.not_mem_nil, or_false] at hm
  rcases hm with rfl | rfl | rfl | rfl | rfl | rfl
  · unfold dotWsUpperM at h
    split at h
    · next c rest => exact ⟨'.', _, rfl, Or.inl rfl⟩
    · exact absurd h (by simp)
  · unfold dotQuoteWsM at h
    split at h
    · next rest => exact ⟨'.', _, rfl, Or.inl rfl⟩
    · exact absurd h (by simp)
  · unfold dotParenWsM at h
    split at h
    · next rest => exact ⟨'.', _, rfl, Or.inl rfl⟩
    · exact absurd h (by simp)
  · unfold questionWsM at h
    split at h
    · next rest => exact ⟨'?', _, rfl, Or.inr (Or.inl rfl)⟩
    · exact absurd h (by simp)
  · unfold bangWsM at h
    split at h
    · next rest => exact ⟨'!', _, rfl, Or.inr (Or.inr rfl)⟩
    · exact absurd h (by simp)
  · unfold dotEndM at h
    split at h
    · next rest => exact ⟨'.', _, rfl, Or.inl rfl⟩
    · exact absurd h (by simp)

/-- When the input overflows the maximum, the boundary never exceeds
`startPos + maxLength`. -/
theorem findSentenceBoundary_le (text : Chars) (startPos maxLength : ℕ)
    (h : ¬ text.length ≤ maxLength) :
    findSentenceBoundary text startPos maxLength ≤ startPos + maxLength := by
  unfold findSentenceBoundary
  rw [if_neg h]
  dsimp only
  set ml := min 1000 (7 * maxLength / 10) with hml
  set st := (text.take (startPos + maxLength + 200)).drop (startPos + ml) with hst
  set cap : Int := ((startPos + maxLength : ℕ) : Int) with hcap
  set b1 := sentencePass st startPos ml cap with hb1
  set best := if b1 = -1 then fallbackPass st startPos ml cap b1 else b1 with hbest
  have hbound : best = -1 ∨ best < cap := by
    rcases sentencePass_cases st startPos ml cap with hc | ⟨m, _, idx, _, he, hlt⟩
    · rw [hbest, if_pos (hb1 ▸ hc)]
      rcases fallbackPass_cases st startPos ml cap b1 with hf | ⟨m, _, idx, _, he, hlt⟩
      · left; rw [hf, hb1, hc]
      · right; rw [he]; exact hlt
    · have : b1 ≠ -1 := by
        rw [hb1, he]
        have := posOf_pos startPos ml idx
        omega
      rw [hbest, if_neg this]
      right
      rw [hb1, he]
      exact hlt
  split
  · next hpos =>
    rcases hbound with h1 | hlt
    · omega
    · have : best.toNat ≤ startPos + maxLength := by
        rw [hcap] at hlt
        omega
      exact this
  · exact le_refl _

/-- None of the ten boundary patterns matches at a position whose text
consists only of the letter 'a'. -/
theorem matchers_none_of_alpha (m : Chars → Option ℕ)
    (hm : m ∈ sentenceMatchers ∨ m ∈ fallbackMatchers) (cs : Chars)
    (hcs : ∀ c ∈ cs, c = 'a') : m cs = none := by
  have hhead : ∀ (c : Char) (rest : Chars), cs = c :: rest → c = 'a' := by
    intro c rest heq
    exact hcs c (by rw [heq]; simp)
  rcases hm with hm | hm <;>
    simp only [sentenceMatchers, fallbackMatchers, List.mem_cons,
      List.not_mem_nil, or_false] at hm
  · rcases hm with rfl | rfl | rfl | rfl | rfl | rfl <;>
      (cases cs with
       | nil => rfl
       | cons c rest =>
         rw [hhead c rest rfl]
         rfl)
  · rcases hm with rfl | rfl | rfl | rfl <;>
      (cases cs with
       | nil => rfl
       | cons c rest =>
         rw [hhead c rest rfl]
         rfl)

/-- `execEnum` over a text on which the matcher never fires is empty. -/
theorem execEnum_eq_nil (m : Chars → Option ℕ)
    (hnone : ∀ cs : Chars, (∀ c ∈ cs, c = 'a') → m cs = none) :
    ∀ (fuel i : ℕ) (cs : Chars), (∀ c ∈ cs, c = 'a') → execEnum m fuel i cs = [] := by
  intro fuel
  induction fuel with
  | zero =>
    intro i cs _
    cases cs <;> rfl
  | succ fuel ih =>
    intro i cs hcs
    cases cs with
    | nil => rfl
    | cons c rest =>
      unfold execEnum
      rw [hnone (c :: rest) hcs]
      exact ih (i + 1) rest (fun c' hc' => hcs c' (List.mem_cons_of_mem _ hc'))

/-- `sentencePass` finds nothing in an all-'a' window. -/
theorem sentencePass_alpha (st : Chars) (sp ml : ℕ) (cap : Int)
    (hst : ∀ c ∈ st, c = 'a') : sentencePass st sp ml cap = -1 := by
  unfold sentencePass
  simp only [sentenceMatchers, List.foldl_cons, List.foldl_nil]
  rw [execEnum_eq_nil dotWsUpperM
      (matchers_none_of_alpha dotWsUpperM (Or.inl (by simp [sentenceMatchers]))) _ _ _ hst,
    execEnum_eq_nil dotQuoteWsM
      (matchers_none_of_alpha dotQuoteWsM (Or.inl (by simp [sentenceMatchers]))) _ _ _ hst,
    execEnum_eq_nil dotParenWsM
      (matchers_none_of_alpha dotParenWsM (Or.inl (by simp [sentenceMatchers]))) _ _ _ hst,
    execEnum_eq_nil questionWsM
      (matchers_none_of_alpha questionWsM (Or.inl (by simp [sentenceMatchers]))) _ _ _ hst,
    execEnum_eq_nil bangWsM
      (matchers_none_of_alpha bangWsM (Or.inl (by simp [sentenceMatchers]))) _ _ _ hst,
    execEnum_eq_nil dotEndM
      (matchers_none_of_alpha dotEndM (Or.inl (by simp [sentenceMatchers]))) _ _ _ hst]
  rfl

/-- `fallbackPass` finds nothing in an all-'a' window. -/
theorem fallbackPass_alpha (st : Chars) (sp ml : ℕ) (cap b0 : Int)
    (hst : ∀ c ∈ st, c = 'a') : fallbackPass st sp ml cap b0 = b0 := by
  unfold fallbackPass
  simp only [fallbackMatchers, List.foldl_cons, List.foldl_nil]
  rw [execEnum_eq_nil semiWsM
      (matchers_none_of_alpha semiWsM (Or.inr (by simp [fallbackMatchers]))) _ _ _ hst,
    execEnum_eq_nil colonWsM
      (matchers_none_of_alpha colonWsM (Or.inr (by simp [fallbackMatchers]))) _ _ _ hst,
    execEnum_eq_nil nlNlM
      (matchers_none_of_alpha nlNlM (Or.inr (by simp [fallbackMatchers]))) _ _ _ hst,
    execEnum_eq_nil dotWsStarM
      (matchers_none_of_alpha dotWsStarM (Or.inr (by simp [fallbackMatchers]))) _ _ _ hst]
  rfl

/-- On a 3000-character run of 'a', the boundary search falls back to the
hard cut at `maxLength = 1500`. -/
theorem findSentenceBoundary_replicate :
    findSentenceBoundary (List.replicate 3000 'a') 0 1500 = 1500 := by
  unfold findSentenceBoundary
  rw [if_neg (by rw [List.length_replicate]; omega)]
  dsimp only
  have hst : ∀ c ∈ ((List.replicate 3000 'a').take (0 + 1500 + 200)).drop
      (0 + min 1000 (7 * 1500 / 10)), c = 'a' := fun c hc =>
    List.eq_of_mem_replicate (List.mem_of_mem_take (List.mem_of_mem_drop hc))
  rw [sentencePass_alpha _ _ _ _ hst]
  rw [if_pos rfl]
  rw [fallbackPass_alpha _ _ _ _ _ hst]
  norm_num

/-- **C7 counterexample.**  For a 3000-character input of identical letters
and a 1500-character maximum, the truncation is the hard cut at exactly 1500
characters: the returned prefix ends in the letter 'a' in the middle of a
3000-character word, not at or before a punctuation boundary.  (The prefix
is marked incomplete, as the claim says.) -/
theorem sentence_boundary_counterexample :
    (truncateParagraph (List.replicate 3000 'a') 1500).1 = List.replicate 1500 'a' ∧
    (truncateParagraph (List.replicate 3000 'a') 1500).2 = false ∧
    (truncateParagraph (List.replicate 3000 'a') 1500).1.getLast? = some 'a' := by
  have hb := findSentenceBoundary_replicate
  unfold truncateParagraph
  rw [if_neg (by rw [List.length_replicate]; omega)]
  dsimp only
  rw [hb]
  refine ⟨?_, ?_, ?_⟩
  · rw [List.take_replicate]
    norm_num
  · rw [List.length_replicate]
    rfl
  · rw [List.take_replicate]
    norm_num [List.getLast?_replicate]

/-- **C7 as amended.**  For every 3000-character input with a 1500-character
maximum the result is marked incomplete and is the prefix cut at
`findSentenceBoundary`, of length at most 1500; when the sentence-ending
scan locates a boundary in the search window the prefix ends in '.', '?' or
'!', and otherwise it is the hard 1500-character cut, which may fall
mid-word.  Every 800-character input is returned whole and marked
complete. -/
theorem sentence_boundary_amended :
    (∀ text : Chars, text.length = 3000 →
      (truncateParagraph text 1500).2 = false ∧
      (truncateParagraph text 1500).1.length ≤ 1500 ∧
      (truncateParagraph text 1500).1 = text.take (findSentenceBoundary text 0 1500) ∧
      (sentencePass ((text.take 1700).drop 1000) 0 1000 1500 ≠ -1 →
        ∃ c, (truncateParagraph text 1500).1.getLast? = some c ∧
          (c = '.' ∨ c = '?' ∨ c = '!'))) ∧
    (∀ text : Chars, text.length = 800 → truncateParagraph text 1500 = (text, true)) := by
  constructor
  · intro text hlen
    have hgt : ¬ text.length ≤ 1500 := by omega
    have hle := findSentenceBoundary_le text 0 1500 hgt
    have hfst : (truncateParagraph text 1500).1 =
        text.take (findSentenceBoundary text 0 1500) := by
      unfold truncateParagraph
      rw [if_neg hgt]
    have hsnd : (truncateParagraph text 1500).2 =
        decide (findSentenceBoundary text 0 1500 ≥ text.length) := by
      unfold truncateParagraph
      rw [if_neg hgt]
    refine ⟨?_, ?_, hfst, ?_⟩
    · rw [hsnd]
      simp only [decide_eq_false_iff_not]
      omega
    · rw [hfst, List.length_take]
      omega
    · intro hne
      have heq : findSentenceBoundary text 0 1500 =
          (let b1 := sentencePass ((text.take 1700).drop 1000) 0 1000 1500
           let best := if b1 = -1 then
               fallbackPass ((text.take 1700).drop 1000) 0 1000 1500 b1
             else b1
           if best > 0 then best.toNat else 1500) := by
        unfold findSentenceBoundary
        rw [if_neg hgt]
        norm_num
      rcases sentencePass_cases ((text.take 1700).drop 1000) 0 1000 1500 with hc |
        ⟨m, hm, idx, hmem, he, hlt⟩
      · exact absurd hc hne
      · have hposn : 0 + 1000 + idx + 1 < 1500 := by
          have := hlt
          unfold posOf at this
          exact_mod_cast this
        have hb1pos : (0:Int) < sentencePass ((text.take 1700).drop 1000) 0 1000 1500 := by
          rw [he]
          exact posOf_pos 0 1000 idx
        have hbound : findSentenceBoundary text 0 1500 = 0 + 1000 + idx + 1 := by
          rw [heq]
          dsimp only
          rw [if_neg hne, if_pos hb1pos, he]
          unfold posOf
          exact Int.toNat_natCast _
        obtain ⟨_, len, hmlen⟩ :=
          execEnum_spec m ((text.take 1700).drop 1000).length 0
            ((text.take 1700).drop 1000) idx hmem
        simp only [Nat.sub_zero] at hmlen
        obtain ⟨c, rest, hdrop, hc⟩ :=
          sentenceMatchers_start m hm _ len hmlen
        refine ⟨c, ?_, hc⟩
        have hgetst : ((text.take 1700).drop 1000)[idx]? = some c := by
          rw [← List.head?_drop, hdrop]
          rfl
        have hgettext : text[1000 + idx]? = some c := by
          rw [List.getElem?_drop] at hgetst
          rw [List.getElem?_take] at hgetst
          rw [if_pos (by omega)] at hgetst
          exact hgetst
        rw [hfst, hbound]
        have hplen : (text.take (0 + 1000 + idx + 1)).length = 0 + 1000 + idx + 1 := by
          rw [List.length_take]
          omega
        rw [List.getLast?_eq_getElem?, hplen, List.getElem?_take,
          if_pos (by omega)]
        have harith : 0 + 1000 + idx + 1 - 1 = 1000 + idx := by omega
        rw [harith]
        exact hgettext
  · intro text hlen
    unfold truncateParagraph
    rw [if_pos (by omega)]

/-- Witness for the amended C7 statement: the two length hypotheses are
discharged at a 3000-character and an 800-character input. -/
theorem sentence_boundary_amended_witness :
    (List.replicate 3000 'a').length = 3000 ∧
    (List.replicate 800 'b').length = 800 ∧
    (truncateParagraph (List.replicate 3000 'a') 1500).2 = false ∧
    truncateParagraph (List.replicate 800 'b') 1500 = (List.replicate 800 'b', true) :=
  ⟨by rw [List.length_replicate], by rw [List.length_replicate],
   (sentence_boundary_amended.1 (List.replicate 3000 'a')
     (by rw [List.length_replicate])).1,
   sentence_boundary_amended.2 (List.replicate 800 'b')
     (by rw [List.length_replicate])⟩

/-! ### C10: invariants of extractCompleteParagraphs -/

/-- The kept prefix never exceeds `maxLength`. -/
theorem truncateParagraph_length_le (cleanText : Chars) (maxLength : ℕ) :
    (truncateParagraph cleanText maxLength).1.length ≤ maxLength := by
  unfold truncateParagraph
  by_cases h : cleanText.length ≤ maxLength
  · rw [if_pos h]
    exact h
  · rw [if_neg h]
    dsimp only
    rw [List.length_take]
    have := findSentenceBoundary_le cleanText 0 maxLength h
    omega

/-- The completeness flag is set exactly when the cleaned text fits. -/
theorem truncateParagraph_complete_iff (cleanText : Chars) (maxLength : ℕ) :
    (truncateParagraph cleanText maxLength).2 = true ↔
      cleanText.length ≤ maxLength := by
  unfold truncateParagraph
  by_cases h : cleanText.length ≤ maxLength
  · rw [if_pos h]
    simpa using h
  · rw [if_neg h]
    dsimp only
    have := findSentenceBoundary_le cleanText 0 maxLength h
    simp only [decide_eq_true_eq]
    omega

/-- The text of one extracted paragraph is exactly the truncation of its
cleaned fragment. -/
theorem paraOf_text (maxLength idx : ℕ) (fragment : String) :
    (paraOf maxLength idx fragment).text.data =
      (truncateParagraph (stripHtml fragment.data false) maxLength).1 := by
  unfold paraOf
  dsimp only

/-- The text length of one extracted paragraph is the truncation's length. -/
theorem paraOf_text_length (maxLength idx : ℕ) (fragment : String) :
    (paraOf maxLength idx fragment).text.length =
      (truncateParagraph (stripHtml fragment.data false) maxLength).1.length := by
  unfold paraOf
  dsimp only
  simp only [String.length]

/-- The completeness flag of one extracted paragraph is the truncation's. -/
theorem paraOf_isComplete (maxLength idx : ℕ) (fragment : String) :
    (paraOf maxLength idx fragment).isComplete =
      (truncateParagraph (stripHtml fragment.data false) maxLength).2 := by
  unfold paraOf
  dsimp only

/-- **C10.**  `extractCompleteParagraphs` yields exactly one paragraph per
input fragment, in order; every paragraph's text is at most `maxLength`
characters; a paragraph is complete exactly when its cleaned fragment fits
within `maxLength`; and its text is exactly the truncation of the cleaned
fragment. -/
theorem extract_paragraphs_invariants (fragments : List String) (maxLength : ℕ)
    (inc : Bool) :
    (extractCompleteParagraphs fragments maxLength inc).length = fragments.length ∧
    ∀ (i : ℕ) (h : i < fragments.length),
      ∃ p, (extractCompleteParagraphs fragments maxLength inc)[i]? = some p ∧
        p.text.length ≤ maxLength ∧
        (p.isComplete = true ↔ (stripHtml (fragments[i]).data false).length ≤ maxLength) ∧
        p.text.data = (truncateParagraph (stripHtml (fragments[i]).data false) maxLength).1 := by
  constructor
  · unfold extractCompleteParagraphs
    rw [List.length_map, List.enum_length]
  · intro i h
    refine ⟨paraOf maxLength i (fragments[i]), ?_, ?_, ?_, ?_⟩
    · unfold extractCompleteParagraphs
      rw [List.getElem?_map, List.getElem?_enum, List.getElem?_eq_getElem h]
      rfl
    · rw [paraOf_text_length]
      exact truncateParagraph_length_le _ maxLength
    · rw [paraOf_isComplete]
      exact truncateParagraph_complete_iff _ maxLength
    · exact paraOf_text maxLength i _

/-! ### C6: citation formatting and validation

`formatCitation` (index.ts 1016-1057) computes its case number by calling
`extractCaseNumber(elements)` on a `CitationElements` record, while
`extractCaseNumber` (633-672) reads the metadata fields `caseno`, `relurl`,
`title` and `tid`.  `validateCitation` (957-986) tests the trimmed citation
against the five anchored `CITATION_PATTERNS` (52-82) in object order. -/

/-- ASCII lower-case letters (`[a-z]` without the `i` flag). -/
def isLowerC (c : Char) : Bool := 'a' ≤ c && c ≤ 'z'

/-- Worker for `splitOnChar`, accumulating the current field reversed. -/
def splitOnCharGo (sep : Char) : Chars → Chars → List Chars
  | [], acc => [acc.reverse]
  | c :: rest, acc =>
    if c = sep then acc.reverse :: splitOnCharGo sep rest []
    else splitOnCharGo sep rest (c :: acc)

/-- `str.split('/')` and friends: split at every occurrence of one
character; JavaScript keeps empty fields. -/
def splitOnChar (sep : Char) (cs : Chars) : List Chars := splitOnCharGo sep cs []

/-- `str.split(sep)[0]`: the prefix before the first occurrence of `sep`
(the whole string when `sep` does not occur), for non-empty `sep`. -/
def beforeSub (sep : Chars) : Chars → Chars
  | [] => []
  | c :: rest =>
    if isPrefixS sep (c :: rest) then [] else c :: beforeSub sep rest

/-- Character classes of the case-number extraction regexes. -/
inductive CClass where
  | alphaCI
  | upperCS
  | digit
  | wsDash
  | ws
  | dotWsColon

/-- The membership test of each class (`alphaCI` is `[A-Z]` under `i`,
`upperCS` without it; `wsDash` is `[\s\x2d]`, `dotWsColon` is `[.\s:]`). -/
def classFn : CClass → Char → Bool
  | CClass.alphaCI => fun c => isAlphaC c
  | CClass.upperCS => fun c => isUpperC c
  | CClass.digit => fun c => isDigitC c
  | CClass.wsDash => fun c => isWsC c || c = '-'
  | CClass.ws => fun c => isWsC c
  | CClass.dotWsColon => fun c => c = '.' || isWsC c || c = ':'

/-- One element of a case-number regex: literals (case-insensitive or
case-sensitive), greedy `X+`, greedy `X*`, `\d\x7b4\x7d`, and the
alternation `(?:of|/)`, optionally with `?`. -/
inductive CPiece where
  | litCI (s : String)
  | litCS (s : String)
  | many1 (cls : CClass)
  | many0 (cls : CClass)
  | rep4 (cls : CClass)
  | altOf (ci : Bool) (opt : Bool)

/-- Backtracking matcher in JavaScript preference order (greedy quantifiers
longest-first, alternatives left to right, optional part before empty):
match the pieces at the head of `cs`, then hand the rest to `k`; the first
success returns the piece-consumed length paired with `k`'s answer. -/
def runPieces {β : Type} (k : Chars → Option β) : List CPiece → Chars → Option (ℕ × β)
  | [], cs => (k cs).map (fun b => (0, b))
  | CPiece.litCI s :: ps, cs =>
    if isPrefixCI s.data cs then
      (runPieces k ps (cs.drop s.data.length)).map (fun nb => (nb.1 + s.data.length, nb.2))
    else none
  | CPiece.litCS s :: ps, cs =>
    if isPrefixS s.data cs then
      (runPieces k ps (cs.drop s.data.length)).map (fun nb => (nb.1 + s.data.length, nb.2))
    else none
  | CPiece.many1 cls :: ps, cs =>
    (List.range (cs.takeWhile (classFn cls)).length).findSome? (fun j =>
      let cnt := (cs.takeWhile (classFn cls)).length - j
      (runPieces k ps (cs.drop cnt)).map (fun nb => (nb.1 + cnt, nb.2)))
  | CPiece.many0 cls :: ps, cs =>
    (List.range ((cs.takeWhile (classFn cls)).length + 1)).findSome? (fun j =>
      let cnt := (cs.takeWhile (classFn cls)).length - j
      (runPieces k ps (cs.drop cnt)).map (fun nb => (nb.1 + cnt, nb.2)))
  | CPiece.rep4 cls :: ps, cs =>
    if (cs.take 4).length = 4 && (cs.take 4).all (classFn cls) then
      (runPieces k ps (cs.drop 4)).map (fun nb => (nb.1 + 4, nb.2))
    else none
  | CPiece.altOf ci opt :: ps, cs =>
    (if (if ci then isPrefixCI "of".data cs else isPrefixS "of".data cs) then
      (runPieces k ps (cs.drop 2)).map (fun nb => (nb.1 + 2, nb.2))
    else none) <|>
    (match cs with
     | '/' :: rest => (runPieces k ps rest).map (fun nb => (nb.1 + 1, nb.2))
     | _ => none) <|>
    (if opt then runPieces k ps cs else none)

/-- Match `pre ++ (grp) ++ post` at the head of `cs`; on the first success
(in backtracking order) return the prefix length and the group length. -/
def matchCap (pre grp post : List CPiece) (cs : Chars) : Option (ℕ × ℕ) :=
  (runPieces (fun s1 =>
    runPieces (fun s2 =>
      (runPieces (fun _ => some 0) post s2).map (fun nb => nb.1)) grp s1) pre cs).map
    (fun r => (r.1, r.2.1))

/-- Leftmost search of `String.prototype.match` (no `g` flag): try every
start position left to right, including the end of the string. -/
def execCapGo (pre grp post : List CPiece) : ℕ → Chars → Option (ℕ × ℕ)
  | i, [] => (matchCap pre grp post []).map (fun pg => (i + pg.1, pg.2))
  | i, c :: rest =>
    match matchCap pre grp post (c :: rest) with
    | some pg => some (i + pg.1, pg.2)
    | none => execCapGo pre grp post (i + 1) rest

/-- `text.match(re)` reduced to its first capture group (`match[1]`). -/
def matchGroup1 (pre grp post : List CPiece) (cs : Chars) : Option Chars :=
  (execCapGo pre grp post 0 cs).map (fun sl => (cs.drop sl.1).take sl.2)

/-- The `relurl` pattern of `extractCaseNumber` (the whole pattern is the
group). -/
def relurlCaseGrp : List CPiece :=
  [CPiece.many1 CClass.alphaCI, CPiece.many0 CClass.wsDash,
   CPiece.many1 CClass.digit, CPiece.many0 CClass.wsDash,
   CPiece.altOf true true, CPiece.many0 CClass.ws, CPiece.rep4 CClass.digit]

/-- Prefix of the first title pattern (`Case No` then `[.\s:]*`, both
case-insensitive). -/
def titleCasePre1 : List CPiece :=
  [CPiece.litCI "Case No", CPiece.many0 CClass.dotWsColon]

/-- Group of the first title pattern (required `(?:of|/)`). -/
def titleCaseGrp1 : List CPiece :=
  [CPiece.many1 CClass.alphaCI, CPiece.many0 CClass.wsDash,
   CPiece.many1 CClass.digit, CPiece.many0 CClass.wsDash,
   CPiece.altOf true false, CPiece.many0 CClass.ws, CPiece.rep4 CClass.digit]

/-- Prefix of the second title pattern: a literal opening parenthesis, the
pattern being case-sensitive. -/
def titleCasePre2 : List CPiece := [CPiece.litCS "("]

/-- Group of the second (case-sensitive) title pattern. -/
def titleCaseGrp2 : List CPiece :=
  [CPiece.many1 CClass.upperCS, CPiece.many0 CClass.wsDash,
   CPiece.many1 CClass.digit, CPiece.many0 CClass.wsDash,
   CPiece.altOf false false, CPiece.many0 CClass.ws, CPiece.rep4 CClass.digit]

/-- Suffix of the second title pattern: the closing parenthesis. -/
def titleCasePost2 : List CPiece := [CPiece.litCS ")"]

/-- Prefix of the third title pattern (`No` then `[.\s:]*`). -/
def titleCasePre3 : List CPiece :=
  [CPiece.litCI "No", CPiece.many0 CClass.dotWsColon]

/-- Group of the third title pattern (digits only before the year). -/
def titleCaseGrp3 : List CPiece :=
  [CPiece.many1 CClass.digit, CPiece.many0 CClass.wsDash,
   CPiece.altOf true false, CPiece.many0 CClass.ws, CPiece.rep4 CClass.digit]

/-- The metadata fields `extractCaseNumber` reads (each may be absent). -/
structure Meta where
  caseno : Option Chars
  relurl : Option Chars
  title : Option Chars
  tid : Option ℕ

/-- The `caseno` branch: taken when the field is present and non-empty
(JavaScript truthiness already excludes the empty string). -/
def casenoField (m : Meta) : Option Chars :=
  match m.caseno with
  | some s => if s = [] then none else some s
  | none => none

/-- The `relurl` branch: the last path segment when it has an upper-case
letter and no dot, otherwise the first capture of the url pattern. -/
def relurlCase (m : Meta) : Option Chars :=
  match m.relurl with
  | some relurl =>
    if relurl = [] then none
    else
      let urlParts := splitOnChar '/' relurl
      let lastPart := urlParts.getLastD []
      if !lastPart.isEmpty && lastPart.any (fun c => isUpperC c) &&
          !(lastPart.contains '.') then
        some lastPart
      else
        matchGroup1 [] relurlCaseGrp [] relurl
  | none => none

/-- The `title` branch: the three title patterns tried in order. -/
def titleCase (m : Meta) : Option Chars :=
  match m.title with
  | some title =>
    if title = [] then none
    else
      match matchGroup1 titleCasePre1 titleCaseGrp1 [] title with
      | some v => some v
      | none =>
        match matchGroup1 titleCasePre2 titleCaseGrp2 titleCasePost2 title with
        | some v => some v
        | none => matchGroup1 titleCasePre3 titleCaseGrp3 [] title
  | none => none

/-- `extractCaseNumber` (index.ts 633-672): `caseno`, then `relurl`, then
`title`, then `tid.toString()`, then the bracketed current-year
placeholder. -/
def extractCaseNumber (currentYear : ℕ) (m : Meta) : Chars :=
  match casenoField m with
  | some s => s
  | none =>
    match relurlCase m with
    | some s => s
    | none =>
      match titleCase m with
      | some s => s
      | none =>
        match m.tid with
        | some n => natToChars n
        | none => "[No. ".data ++ natToChars currentYear ++ "]".data

/-- The `CitationElements` record built by the `format_citations` tool. -/
structure CitationElements where
  parties : Chars
  court : Chars
  year : Chars
  caseNumber : Option Chars
  paragraph : Option Chars

/-- `formatCitation` passes its `CitationElements` record directly to
`extractCaseNumber`, but a `CitationElements` value has none of the
`caseno`, `relurl`, `title` or `tid` properties that function reads: in
JavaScript every one of those accesses yields `undefined`, whatever the
elements hold (their own `caseNumber` field is never read). -/
def metaOfElements (_elements : CitationElements) : Meta :=
  { caseno := none, relurl := none, title := none, tid := none }

/-- The output record of `formatCitation`. -/
structure FormattedCitation where
  full : Chars
  short : Chars
  inText : Chars
  footnote : Chars
  bibliography : Chars
  pinpoint : Option Chars

/-- `formatCitation` (index.ts 1016-1057). -/
def formatCitation (currentYear : ℕ) (elements : CitationElements)
    (style : String) : FormattedCitation :=
  let caseNumber := extractCaseNumber currentYear (metaOfElements elements)
  let fs : Chars × Chars :=
    if style = "AIR" then
      (elements.year ++ " AIR ".data ++ elements.court ++ " ".data ++ caseNumber,
       elements.year ++ " AIR ".data ++ elements.court)
    else if style = "SCC" then
      (elements.parties ++ " (".data ++ elements.year ++ ") SCC ".data ++ caseNumber,
       beforeSub " v.".data elements.parties ++ " (".data ++ elements.year ++ ") SCC".data)
    else if style = "Neutral" then
      let courtCode :=
        if containsSub elements.court "Supreme".data then "SC".data
        else (elements.court.take 3).map Char.toUpper
      (elements.year ++ " IN".data ++ courtCode ++ " ".data ++ caseNumber,
       elements.year ++ " IN".data ++ courtCode)
    else if style = "SCC OnLine" then
      let courtAbbr :=
        if containsSub elements.court "Supreme".data then "SC".data
        else if containsSub elements.court "Delhi".data then "Del".data
        else if containsSub elements.court "Bombay".data then "Bom".data
        else if containsSub elements.court "Madras".data then "Mad".data
        else if containsSub elements.court "Calcutta".data then "Cal".data
        else "HC".data
      (elements.parties ++ ", ".data ++ elements.year ++ " SCC OnLine ".data ++
        courtAbbr ++ " ".data ++ caseNumber,
       elements.year ++ " SCC OnLine ".data ++ courtAbbr)
    else
      (elements.parties ++ " (".data ++ elements.year ++ ") ".data ++ elements.court,
       beforeSub " v.".data elements.parties ++ " (".data ++ elements.year ++ ")".data)
  { full := fs.1
    short := fs.2
    inText := "(".data ++ beforeSub " v.".data elements.parties ++ ", ".data ++
      elements.year ++ ")".data
    footnote := fs.1 ++ " (".data ++ elements.court ++ ")".data
    bibliography := elements.parties ++ " (".data ++ elements.year ++ "). ".data ++
      elements.court ++ ". ".data ++ fs.1 ++ ".".data
    pinpoint := elements.paragraph.map (fun p => fs.1 ++ ", ¶ ".data ++ p) }

/-- One element of an anchored validation pattern (`^...$`, no `i` flag):
literals, `\s+`, `\d+`, `\d\x7bn\x7d`, `(?:19|20)`, optional single
parentheses, `[A-Z]`, `[a-z]*`, `[a-z]+` and `[A-Z]\x7blo,hi\x7d`. -/
inductive APiece where
  | lit (s : String)
  | ws1
  | digits1
  | digitsN (n : ℕ)
  | year19or20
  | lparenOpt
  | rparenOpt
  | upper1
  | lower0
  | lower1
  | upperRange (lo hi : ℕ)

/-- Does the piece list match `cs` exactly (anchored at both ends)?
`RegExp.test` is existential, so the exploration order of the quantifiers
is irrelevant. -/
def matchFull : List APiece → Chars → Bool
  | [], cs => cs.isEmpty
  | APiece.lit s :: ps, cs =>
    isPrefixS s.data cs && matchFull ps (cs.drop s.data.length)
  | APiece.ws1 :: ps, cs =>
    (List.range (cs.takeWhile (fun c => isWsC c)).length).any
      (fun k => matchFull ps (cs.drop (k + 1)))
  | APiece.digits1 :: ps, cs =>
    (List.range (cs.takeWhile (fun c => isDigitC c)).length).any
      (fun k => matchFull ps (cs.drop (k + 1)))
  | APiece.digitsN n :: ps, cs =>
    decide ((cs.take n).length = n) && (cs.take n).all (fun c => isDigitC c) &&
      matchFull ps (cs.drop n)
  | APiece.year19or20 :: ps, cs =>
    (isPrefixS "19".data cs || isPrefixS "20".data cs) && matchFull ps (cs.drop 2)
  | APiece.lparenOpt :: ps, cs =>
    matchFull ps cs ||
      (match cs with
       | '(' :: rest => matchFull ps rest
       | _ => false)
  | APiece.rparenOpt :: ps, cs =>
    matchFull ps cs ||
      (match cs with
       | ')' :: rest => matchFull ps rest
       | _ => false)
  | APiece.upper1 :: ps, cs =>
    (match cs with
     | c :: rest => isUpperC c && matchFull ps rest
     | [] => false)
  | APiece.lower0 :: ps, cs =>
    (List.range ((cs.takeWhile (fun c => isLowerC c)).length + 1)).any
      (fun k => matchFull ps (cs.drop k))
  | APiece.lower1 :: ps, cs =>
    (List.range (cs.takeWhile (fun c => isLowerC c)).length).any
      (fun k => matchFull ps (cs.drop (k + 1)))
  | APiece.upperRange lo hi :: ps, cs =>
    (List.range (hi + 1 - lo)).any (fun j =>
      decide ((cs.take (lo + j)).length = lo + j) &&
        (cs.take (lo + j)).all (fun c => isUpperC c) &&
        matchFull ps (cs.drop (lo + j)))

/-- The `AIR` pattern with its optional court part expanded to `court`
(absent, one word, or two words). -/
def airVariant (court : List APiece) : List APiece :=
  [APiece.lparenOpt, APiece.year19or20, APiece.digitsN 2, APiece.rparenOpt,
   APiece.ws1, APiece.lit "AIR", APiece.ws1] ++ court ++ [APiece.digits1]

/-- `CITATION_PATTERNS.AIR.pattern.test`. -/
def airTest (cs : Chars) : Bool :=
  matchFull (airVariant []) cs ||
  matchFull (airVariant [APiece.upper1, APiece.lower0, APiece.ws1]) cs ||
  matchFull (airVariant [APiece.upper1, APiece.lower0, APiece.ws1,
    APiece.upper1, APiece.lower0, APiece.ws1]) cs

/-- The `SCC` pattern with its optional volume part expanded to `mid`. -/
def sccVariant (mid : List APiece) : List APiece :=
  [APiece.lparenOpt, APiece.year19or20, APiece.digitsN 2, APiece.rparenOpt,
   APiece.ws1] ++ mid ++ [APiece.lit "SCC", APiece.ws1, APiece.digits1]

/-- `CITATION_PATTERNS.SCC.pattern.test`. -/
def sccTest (cs : Chars) : Bool :=
  matchFull (sccVariant []) cs ||
  matchFull (sccVariant [APiece.digits1, APiece.ws1]) cs

/-- `CITATION_PATTERNS.SCC_OnLine.pattern`. -/
def sccOnLinePattern : List APiece :=
  [APiece.year19or20, APiece.digitsN 2, APiece.ws1, APiece.lit "SCC",
   APiece.ws1, APiece.lit "OnLine", APiece.ws1, APiece.upper1, APiece.lower1,
   APiece.ws1, APiece.digits1]

/-- `CITATION_PATTERNS.SCCOnLine.pattern`. -/
def sccOnLineNoSpacePattern : List APiece :=
  [APiece.year19or20, APiece.digitsN 2, APiece.ws1, APiece.lit "SCCOnLine",
   APiece.ws1, APiece.upper1, APiece.lower1, APiece.ws1, APiece.digits1]

/-- `CITATION_PATTERNS.Neutral.pattern`. -/
def neutralPattern : List APiece :=
  [APiece.year19or20, APiece.digitsN 2, APiece.ws1, APiece.lit "IN",
   APiece.upperRange 2 4, APiece.ws1, APiece.digits1]

/-- One pass of `String.prototype.replace` with a `/\bpat\b/g` regex
(case-sensitive, all patterns here non-empty): scan left to right, replace
a match whose neighbours are non-word characters, and resume after it; the
fuel is the input length. -/
def replaceWordGo (pat rep : Chars) : ℕ → Bool → Chars → Chars
  | 0, _, cs => cs
  | _ + 1, _, [] => []
  | fuel + 1, prevWord, c :: rest =>
    if !prevWord && isPrefixS pat (c :: rest) &&
        !(match (c :: rest).drop pat.length with
          | [] => false
          | d :: _ => isWordC d) then
      rep ++ replaceWordGo pat rep fuel
        (match pat.getLast? with
         | some d => isWordC d
         | none => prevWord)
        ((c :: rest).drop pat.length)
    else c :: replaceWordGo pat rep fuel (isWordC c) rest

/-- `cleaned.replace(/\bpat\b/g, rep)`. -/
def replaceWordAll (pat rep cs : Chars) : Chars :=
  replaceWordGo pat rep cs.length false cs

/-- The record returned by `validateCitation`. -/
structure CitationValidation where
  isValid : Bool
  format : Option String
  suggestion : Option Chars

/-- `validateCitation` (index.ts 957-986): trim, test the five anchored
patterns in `Object.entries` order, then build the suggestion by the three
word-boundary fixes. -/
def validateCitation (citation : Chars) : CitationValidation :=
  let cleaned := trimJS citation
  if airTest cleaned then
    { isValid := true, format := some "AIR", suggestion := none }
  else if sccTest cleaned then
    { isValid := true, format := some "SCC", suggestion := none }
  else if matchFull sccOnLinePattern cleaned then
    { isValid := true, format := some "SCC_OnLine", suggestion := none }
  else if matchFull sccOnLineNoSpacePattern cleaned then
    { isValid := true, format := some "SCCOnLine", suggestion := none }
  else if matchFull neutralPattern cleaned then
    { isValid := true, format := some "Neutral", suggestion := none }
  else
    let s1 := replaceWordAll "Dell".data "Del".data cleaned
    let s2 := replaceWordAll "Supreme Court".data "SC".data s1
    let s3 := replaceWordAll "High Court".data "HC".data s2
    { isValid := false, format := none,
      suggestion := if s3 ≠ cleaned then some s3 else none }

/-- Concrete well-formed citation elements: parties, a recognized court, a
four-digit year and a case number. -/
def sampleElements : CitationElements :=
  { parties := "Ram Kumar v. State of Delhi".data
    court := "Delhi".data
    year := "1986".data
    caseNumber := some "515".data
    paragraph := none }

/-- Witness for C10: the index hypothesis is discharged at a one-fragment
list. -/
theorem extract_paragraphs_invariants_witness :
    ∃ p, (extractCompleteParagraphs ["<p>Hi there.</p>"] 5 true)[0]? = some p ∧
      p.text.length ≤ 5 ∧
      (p.isComplete = true ↔ (stripHtml ("<p>Hi there.</p>").data false).length ≤ 5) ∧
      p.text.data = (truncateParagraph (stripHtml ("<p>Hi there.</p>").data false) 5).1 :=
  (extract_paragraphs_invariants ["<p>Hi there.</p>"] 5 true).2 0 (by decide)

/-- **C6.**  The format-then-validate round trip fails for every one of the
four supported styles at well-formed elements: `formatCitation` hands its
`CitationElements` record to `extractCaseNumber`, which reads only the
absent `caseno`, `relurl`, `title` and `tid` fields and so always falls
back to the bracketed `[No. <currentYear>]` placeholder; every validation
pattern ends in a digit run, so no formatted full citation is accepted
(`isValid` is false for all four styles), although the intended citations
built from the elements' own case number do validate. -/
theorem citation_roundtrip_fails :
    extractCaseNumber 2026 (metaOfElements sampleElements) = "[No. 2026]".data ∧
    (formatCitation 2026 sampleElements "AIR").full =
      "1986 AIR Delhi [No. 2026]".data ∧
    (formatCitation 2026 sampleElements "Neutral").full =
      "1986 INDEL [No. 2026]".data ∧
    (validateCitation (formatCitation 2026 sampleElements "AIR").full).isValid = false ∧
    (validateCitation (formatCitation 2026 sampleElements "SCC").full).isValid = false ∧
    (validateCitation (formatCitation 2026 sampleElements "Neutral").full).isValid = false ∧
    (validateCitation (formatCitation 2026 sampleElements "SCC OnLine").full).isValid = false ∧
    (validateCitation "1986 AIR Delhi 515".data).isValid = true ∧
    (validateCitation "1986 INDEL 515".data).isValid = true := by
  decide

end LegalMCP
